import Mathlib

/-!
Verification development for the dynamic report builder backend
(`backend/udf/calculations.py`, `backend/report/routes.py`,
`backend/udf/routes.py`, `backend/report/models.py`).

The Python code is shallowly embedded: SQLAlchemy model classes become
`ModelClass` values carrying their column and relationship attribute
names in declaration order, database rows become `PyRecord`s, scalar
values become `PyVal` (numbers are modelled as rationals), Python
exceptions become `Except PyErr`, and the `random` module becomes an
explicit oracle `RNG` threaded through the fallback path of
`calculate_udf`.  Inherited framework attributes of model classes
(for example `metadata`) are not modelled; only the columns and
relationships declared in `backend/models/financial.py` are, in their
declaration order.
-/

/-- A Python scalar value as it appears in records and parameters:
numbers (int/float modelled as rationals), strings, and `None`. -/
inductive PyVal where
  | num (q : ℚ)
  | str (s : String)
  | pynone
deriving DecidableEq, Repr

/-- Python truthiness for the modelled values: `0`, `""` and `None` are falsy. -/
def truthy : PyVal → Bool
  | PyVal.num q => q ≠ 0
  | PyVal.str s => s ≠ ""
  | PyVal.pynone => false

/-- SQL equality as produced by a SQLAlchemy `==` filter: `NULL` compares
equal to nothing. -/
def sqlEq : PyVal → PyVal → Bool
  | PyVal.pynone, _ => false
  | _, PyVal.pynone => false
  | a, b => a = b

/-- The Python exceptions that the embedded code can raise. -/
inductive PyErr where
  | attributeError
  | typeError
deriving DecidableEq, Repr

/-- A Python dict with string keys and scalar values (`calculation_params`,
a report row, ...), in insertion order. -/
abbrev PyDict : Type := List (String × PyVal)

/-- `d[k]` as an option (first binding wins, as in a dict with unique keys). -/
def dictLookup (d : PyDict) (k : String) : Option PyVal :=
  (d.find? (fun e => e.1 = k)).map (fun e => e.2)

/-- `d[k] = v`: replace the binding in place if the key exists, else append
(insertion-order semantics of a Python dict). -/
def dictSet (d : PyDict) (k : String) (v : PyVal) : PyDict :=
  match d with
  | [] => [(k, v)]
  | e :: rest => if e.1 = k then (k, v) :: rest else e :: dictSet rest k v

/-- `params.get(key, default)` on a dict. -/
def pget (p : PyDict) (k : String) (d : PyVal) : PyVal :=
  (dictLookup p k).getD d

/-- `params.get(key, default)` where `params` may be Python `None`
(an `Optional[Dict]`): calling `.get` on `None` raises `AttributeError`. -/
def pgetOpt (p : Option PyDict) (k : String) (d : PyVal) : Except PyErr PyVal :=
  match p with
  | none => Except.error PyErr.attributeError
  | some dict => Except.ok (pget dict k d)

/-- Using a value as an attribute name (`hasattr`/`getattr` second argument):
non-strings raise `TypeError`. -/
def asStrE : PyVal → Except PyErr String
  | PyVal.str s => Except.ok s
  | _ => Except.error PyErr.typeError

/-- Extract the numeric payload of a value, if any (SQL aggregates skip
non-numeric/NULL entries in this model). -/
def asNum : PyVal → Option ℚ
  | PyVal.num q => some q
  | _ => none

/-- A bare `try: ... except: return default` boundary around a computation. -/
def pyTry (body : Except PyErr PyVal) (default : PyVal) : PyVal :=
  match body with
  | Except.ok v => v
  | Except.error _ => default

/-- The Python `None`-able string of an `Optional[str]` column, as a value. -/
def optStrVal : Option String → PyVal
  | some s => PyVal.str s
  | none => PyVal.pynone

/-- Truthiness of an `Optional[str]`: `None` and `""` are falsy. -/
def optTruthy : Option String → Bool
  | some s => s ≠ ""
  | none => false

/-- A SQLAlchemy model class of `backend/models/financial.py`: its registry
name, its column names and its relationship attribute names, each in
declaration order. -/
structure ModelClass where
  name : String
  columns : List String
  relationships : List String
deriving DecidableEq, Repr

/-- The non-underscore attribute names of a model class used by
`hasattr(cls, ...)`: columns then relationships, in declaration order. -/
def clsAttrs (c : ModelClass) : List String :=
  c.columns ++ c.relationships

/-- `Deal` from `backend/models/financial.py`. -/
def Deal : ModelClass :=
  { name := "deal"
    columns := ["id", "deal_name", "issuer", "deal_date", "total_amount", "currency", "status"]
    relationships := ["tranches"] }

/-- `Tranche` from `backend/models/financial.py`. -/
def Tranche : ModelClass :=
  { name := "tranche"
    columns := ["id", "deal_id", "tranche_name", "amount", "interest_rate", "maturity_date", "seniority"]
    relationships := ["deal", "cashflows"] }

/-- `CashFlow` from `backend/models/financial.py`. -/
def CashFlow : ModelClass :=
  { name := "cashflow"
    columns := ["id", "tranche_id", "payment_date", "principal", "interest", "fees"]
    relationships := ["tranche"] }

/-- `MODEL_REGISTRY` from `backend/common/model_registry.py`. -/
def MODEL_REGISTRY : List (String × ModelClass) :=
  [("deal", Deal), ("tranche", Tranche), ("cashflow", CashFlow)]

/-- `get_model_class(model_id)` for a string id. -/
def get_model_class_s (model_id : String) : Option ModelClass :=
  (MODEL_REGISTRY.find? (fun e => e.1 = model_id)).map (fun e => e.2)

/-- `get_model_class` applied to an arbitrary parameter value: a non-string
is simply not a key of the registry dict, yielding `None`. -/
def get_model_class : PyVal → Option ModelClass
  | PyVal.str s => get_model_class_s s
  | _ => none

/-- A persisted row: the non-underscore attribute names of its class in
declaration order (for `dir`/`hasattr` on the instance) and its column
values. -/
structure PyRecord where
  cls : List String
  attrs : List (String × PyVal)
deriving DecidableEq, Repr

/-- `getattr(record, name, default)`: relationship attributes are not
modelled as values, so only column values are returned. -/
def getattrD (r : PyRecord) (name : String) (default : PyVal) : PyVal :=
  ((r.attrs.find? (fun e => e.1 = name)).map (fun e => e.2)).getD default

/-- `record.name` without a default: raises `AttributeError` when absent. -/
def getattrE (r : PyRecord) (name : String) : Except PyErr PyVal :=
  match (r.attrs.find? (fun e => e.1 = name)).map (fun e => e.2) with
  | some v => Except.ok v
  | none => Except.error PyErr.attributeError

/-- The backing store for one run: rows per registry model name, plus the
expression evaluator standing in for `db.execute(text(...))` with bound
parameters (`none` models an error or an empty result). -/
structure DB where
  tables : List (String × List PyRecord)
  evalExpr : String → List (String × PyVal) → Option PyVal

/-- `db.query(cls)`: all rows of the model. -/
def dbRows (db : DB) (name : String) : List PyRecord :=
  ((db.tables.find? (fun e => e.1 = name)).map (fun e => e.2)).getD []

/-- `str.lower()` on one character (the names involved are ASCII). -/
def charLower (c : Char) : Char :=
  if 'A' ≤ c ∧ c ≤ 'Z' then Char.ofNat (c.toNat + 32) else c

/-- `s.lower()` (ASCII case folding, matching the identifiers involved). -/
def strLower (s : String) : String :=
  String.mk (s.toList.map charLower)

/-- `s.startswith(p)`. -/
def strStartsWith (s p : String) : Bool :=
  p.toList.isPrefixOf s.toList

/-- `s.endswith(p)`. -/
def strEndsWith (s p : String) : Bool :=
  p.toList.reverse.isPrefixOf s.toList.reverse

/-- Whether the character list `needle` occurs contiguously in `hay`
(Python `needle in hay` on strings). -/
def listInfixB (needle : List Char) : List Char → Bool
  | [] => needle.isEmpty
  | c :: rest => needle.isPrefixOf (c :: rest) || listInfixB needle rest

/-- `needle in hay` on strings. -/
def strContainsB (hay needle : String) : Bool :=
  listInfixB needle.toList hay.toList

/-- Lexicographic comparison of character lists by code point, the order
Python `sorted`/`dir` uses on identifiers. -/
def listLeB : List Char → List Char → Bool
  | [], _ => true
  | _ :: _, [] => false
  | a :: as, b :: bs => if a = b then listLeB as bs else decide (a < b)

/-- String order by code point. -/
def strLeB (s t : String) : Bool :=
  listLeB s.toList t.toList

/-- `v.lower()`: only strings expose `.lower()`; anything else raises
`AttributeError`. -/
def pyLower : PyVal → Except PyErr String
  | PyVal.str s => Except.ok (strLower s)
  | _ => Except.error PyErr.typeError

/-- Insert into a `strLeB`-sorted list. -/
def orderedInsertB (a : String) : List String → List String
  | [] => [a]
  | b :: l => if strLeB a b then a :: b :: l else b :: orderedInsertB a l

/-- Insertion sort by `strLeB` (the sort performed by Python `dir`). -/
def insertionSortB : List String → List String
  | [] => []
  | a :: l => orderedInsertB a (insertionSortB l)

/-- Python `dir(...)` returns the attribute names sorted alphabetically. -/
def pyDir (attrs : List String) : List String :=
  insertionSortB attrs

/-- The per-attribute test of the fuzzy-match fallback in
`backend/udf/calculations.py`: skip underscore names, then
`want.lower() in attr.lower() or attr.lower().endswith(want.lower())`,
where `wantLower` is already lowercased. -/
def fuzzyPred (wantLower : String) (attr : String) : Bool :=
  !strStartsWith attr "_" &&
    (strContainsB (strLower attr) wantLower || strEndsWith (strLower attr) wantLower)

/-- `similar_fields[0]` of the fuzzy-match fallback: the first element of
`dir(...)` (alphabetical order) passing `fuzzyPred`. -/
def fuzzy_list (attrs : List String) (wantLower : String) : Option String :=
  ((pyDir attrs).filter (fuzzyPred wantLower)).head?

/-- Fuzzy match over a model class. -/
def fuzzy_match (c : ModelClass) (wantLower : String) : Option String :=
  fuzzy_list (clsAttrs c) wantLower

/-- The alternative foreign-key naming patterns tried by
`sum_calculation`/`average_calculation`/`count_calculation`. -/
def candidate_fk_fields (bm : String) : List String :=
  [bm ++ "_id", strLower bm ++ "_id", "id_" ++ bm, "id_" ++ strLower bm]

/-- The relationship-field resolution of the sum/average/count
calculations: the natural name `<base_model>_id` if the related class has
it, otherwise the first of the alternative patterns that exists,
otherwise nothing (the calculation then returns 0). -/
def resolve_relationship_field (rc : ModelClass) (bm : String) : Option String :=
  let natural := bm ++ "_id"
  if (clsAttrs rc).contains natural then some natural
  else (candidate_fk_fields bm).find? (fun f => (clsAttrs rc).contains f)

/-- The rows of `db.query(cls).filter(getattr(cls, fld) == base_id)` plus the
conditional cycle filter
`if hasattr(cls, "cycle_code") and cycle_code: ... == cycle_code`, shared by
the sum/average/count and model-field mapping queries. -/
def relatedRows (db : DB) (c : ModelClass) (fld : String) (base_id : PyVal) (cycle : String) :
    List PyRecord :=
  let rows := (dbRows db c.name).filter (fun row => sqlEq (getattrD row fld PyVal.pynone) base_id)
  if (clsAttrs c).contains "cycle_code" && cycle ≠ "" then
    rows.filter (fun row => sqlEq (getattrD row "cycle_code" PyVal.pynone) (PyVal.str cycle))
  else rows

/-- Body of the `try` block of `sum_calculation`: resolve the relationship
field, check the base id, resolve `field_to_sum` exactly or fuzzily, then
`SUM` the field over the related rows; `result or 0` at the end. -/
def sum_body (db : DB) (r : PyRecord) (bm : String) (fts : PyVal) (rc : ModelClass)
    (cycle : String) : Except PyErr PyVal := do
  match resolve_relationship_field rc bm with
  | none => pure (PyVal.num 0)
  | some relf =>
    let base_id := getattrD r "id" PyVal.pynone
    if !truthy base_id then pure (PyVal.num 0)
    else do
      let s ← asStrE fts
      match (if (clsAttrs rc).contains s then some s else fuzzy_match rc (strLower s)) with
      | none => pure (PyVal.num 0)
      | some f =>
        let vals := (relatedRows db rc relf base_id cycle).filterMap
          (fun row => asNum (getattrD row f PyVal.pynone))
        let result := if vals.isEmpty then PyVal.pynone else PyVal.num vals.sum
        pure (if truthy result then result else PyVal.num 0)

/-- `sum_calculation` from `backend/udf/calculations.py` (registered for
kind `sum` at level `deal`). -/
def sum_calculation (db : DB) (r : PyRecord) (bm : String) (sf : Option String)
    (params : Option PyDict) (cycle : String) : Except PyErr PyVal := do
  let rm ← pgetOpt params "related_model" (PyVal.str "tranche")
  let fts ← pgetOpt params "field_to_sum" (PyVal.str "amount")
  match get_model_class rm with
  | none => pure (PyVal.num 0)
  | some rc => pure (pyTry (sum_body db r bm fts rc cycle) (PyVal.num 0))

/-- Body of the `try` block of `average_calculation`: as `sum_body` but
computing the mean over the non-NULL values. -/
def average_body (db : DB) (r : PyRecord) (bm : String) (fta : PyVal) (rc : ModelClass)
    (cycle : String) : Except PyErr PyVal := do
  match resolve_relationship_field rc bm with
  | none => pure (PyVal.num 0)
  | some relf =>
    let base_id := getattrD r "id" PyVal.pynone
    if !truthy base_id then pure (PyVal.num 0)
    else do
      let s ← asStrE fta
      match (if (clsAttrs rc).contains s then some s else fuzzy_match rc (strLower s)) with
      | none => pure (PyVal.num 0)
      | some f =>
        let vals := (relatedRows db rc relf base_id cycle).filterMap
          (fun row => asNum (getattrD row f PyVal.pynone))
        let result := if vals.isEmpty then PyVal.pynone else PyVal.num (vals.sum / vals.length)
        pure (if truthy result then result else PyVal.num 0)

/-- `average_calculation` from `backend/udf/calculations.py` (registered for
kind `average` at level `deal`). -/
def average_calculation (db : DB) (r : PyRecord) (bm : String) (sf : Option String)
    (params : Option PyDict) (cycle : String) : Except PyErr PyVal := do
  let rm ← pgetOpt params "related_model" (PyVal.str "tranche")
  let fta ← pgetOpt params "field_to_average" (PyVal.str "amount")
  match get_model_class rm with
  | none => pure (PyVal.num 0)
  | some rc => pure (pyTry (average_body db r bm fta rc cycle) (PyVal.num 0))

/-- Body of the `try` block of `count_calculation`. -/
def count_body (db : DB) (r : PyRecord) (bm : String) (rc : ModelClass)
    (cycle : String) : Except PyErr PyVal := do
  match resolve_relationship_field rc bm with
  | none => pure (PyVal.num 0)
  | some relf =>
    let base_id := getattrD r "id" PyVal.pynone
    if !truthy base_id then pure (PyVal.num 0)
    else
      let result := PyVal.num ((relatedRows db rc relf base_id cycle).length)
      pure (if truthy result then result else PyVal.num 0)

/-- `count_calculation` from `backend/udf/calculations.py` (registered for
kind `count` at level `group`). -/
def count_calculation (db : DB) (r : PyRecord) (bm : String) (sf : Option String)
    (params : Option PyDict) (cycle : String) : Except PyErr PyVal := do
  let rm ← pgetOpt params "related_model" (PyVal.str "deal")
  match get_model_class rm with
  | none => pure (PyVal.num 0)
  | some rc => pure (pyTry (count_body db r bm rc cycle) (PyVal.num 0))

/-- `min_calculation` from `backend/udf/calculations.py` (registered for
kind `min` at level `tranche`): reads a field directly off the base record,
with the fuzzy fallback over `dir(base_record)`; it has no `try` of its
own, so its failures escape to the caller. -/
def min_calculation (db : DB) (r : PyRecord) (bm : String) (sf : Option String)
    (params : Option PyDict) (cycle : String) : Except PyErr PyVal := do
  let p ← pgetOpt params "field_to_min" (optStrVal sf)
  let ftm := if truthy p then p else optStrVal sf
  if !truthy ftm then do
    let w ← pyLower ftm
    match fuzzy_list r.cls w with
    | some a => pure (getattrD r a (PyVal.num 0))
    | none => pure (PyVal.num 0)
  else do
    let s ← asStrE ftm
    if r.cls.contains s then pure (getattrD r s (PyVal.num 0))
    else
      match fuzzy_list r.cls (strLower s) with
      | some a => pure (getattrD r a (PyVal.num 0))
      | none => pure (PyVal.num 0)

/-- `max_calculation` from `backend/udf/calculations.py` (registered for
kind `max` at level `tranche`); identical to `min_calculation` except for
the `field_to_max` parameter name. -/
def max_calculation (db : DB) (r : PyRecord) (bm : String) (sf : Option String)
    (params : Option PyDict) (cycle : String) : Except PyErr PyVal := do
  let p ← pgetOpt params "field_to_max" (optStrVal sf)
  let ftm := if truthy p then p else optStrVal sf
  if !truthy ftm then do
    let w ← pyLower ftm
    match fuzzy_list r.cls w with
    | some a => pure (getattrD r a (PyVal.num 0))
    | none => pure (PyVal.num 0)
  else do
    let s ← asStrE ftm
    if r.cls.contains s then pure (getattrD r s (PyVal.num 0))
    else
      match fuzzy_list r.cls (strLower s) with
      | some a => pure (getattrD r a (PyVal.num 0))
      | none => pure (PyVal.num 0)

/-- `custom_calculation` from `backend/udf/calculations.py` (registered for
kind `custom` at any level): evaluates the formula with every column of the
base record bound as a parameter; a missing formula, an evaluation error or
an empty result yields 0. -/
def custom_calculation (db : DB) (r : PyRecord) (bm : String) (sf : Option String)
    (params : Option PyDict) (cycle : String) : Except PyErr PyVal := do
  let formula ← pgetOpt params "formula" PyVal.pynone
  if !truthy formula then pure (PyVal.num 0)
  else
    match formula with
    | PyVal.str s =>
      match db.evalExpr s r.attrs with
      | some v => pure v
      | none => pure (PyVal.num 0)
    | _ => pure (PyVal.num 0)

/-- Body of the `try` block of the `model_field` branch of
`mapping_calculation`. -/
def mapping_body (db : DB) (r : PyRecord) (sc : ModelClass) (sfv rfv : PyVal)
    (cycle : String) : Except PyErr PyVal := do
  let rf ← asStrE rfv
  if !(clsAttrs sc).contains rf then pure PyVal.pynone
  else
    let base_id := getattrD r "id" PyVal.pynone
    if !truthy base_id then pure PyVal.pynone
    else do
      let sfs ← asStrE sfv
      if !(clsAttrs sc).contains sfs then pure PyVal.pynone
      else
        match (relatedRows db sc rf base_id cycle).head? with
        | none => pure PyVal.pynone
        | some row => pure (getattrD row sfs PyVal.pynone)

/-- `mapping_calculation` from `backend/udf/calculations.py` (registered for
kind `mapping` at any level): `static` returns the configured value,
`model_field` looks a value up in a related record, anything else yields
`None`; only the `model_field` query is wrapped in a `try`. -/
def mapping_calculation (db : DB) (r : PyRecord) (bm : String) (sf : Option String)
    (params : Option PyDict) (cycle : String) : Except PyErr PyVal := do
  let mt ← pgetOpt params "mapping_type" (PyVal.str "static")
  if mt = PyVal.str "static" then do
    let mv ← pgetOpt params "mapping_value" (PyVal.str "")
    pure mv
  else if mt = PyVal.str "model_field" then do
    let sm ← pgetOpt params "source_model" PyVal.pynone
    let sfv ← pgetOpt params "source_field" PyVal.pynone
    let rfv ← pgetOpt params "relation_field" PyVal.pynone
    if !truthy sm || !truthy sfv || !truthy rfv then pure PyVal.pynone
    else
      match get_model_class sm with
      | none => pure PyVal.pynone
      | some sc => pure (pyTry (mapping_body db r sc sfv rfv cycle) PyVal.pynone)
  else pure PyVal.pynone

/-- The signature shared by every calculation implementation:
`(db, base_record, base_model, source_field, params, cycle_code)`. -/
def CalcImpl : Type :=
  DB → PyRecord → String → Option String → Option PyDict → String → Except PyErr PyVal

/-- A calculation registry: a dict keyed by
`(calculation_type, aggregation_level)`, either component possibly `None`. -/
def CalcRegistry : Type :=
  List ((Option String × Option String) × CalcImpl)

/-- Dict lookup in a calculation registry. -/
def regGet (reg : CalcRegistry) (k : Option String × Option String) : Option CalcImpl :=
  (reg.find? (fun e => e.1 = k)).map (fun e => e.2)

/-- The `CALCULATIONS` registry as populated once at import time by the
`@register_calculation` decorators of `backend/udf/calculations.py`. -/
def CALCULATIONS : CalcRegistry :=
  [ ((some "sum", some "deal"), sum_calculation),
    ((some "average", some "deal"), average_calculation),
    ((some "count", some "group"), count_calculation),
    ((some "min", some "tranche"), min_calculation),
    ((some "max", some "tranche"), max_calculation),
    ((some "custom", none), custom_calculation),
    ((some "mapping", none), mapping_calculation) ]

/-- `get_calculation_function(calculation_type, aggregation_level)` from
`backend/udf/calculations.py`: the exact `(kind, level)` entry if present,
else the level-agnostic `(kind, None)` entry, else `None`. -/
def get_calculation_function (reg : CalcRegistry) (ct : Option String) (al : Option String) :
    Option CalcImpl :=
  match regGet reg (ct, al) with
  | some f => some f
  | none => regGet reg (ct, none)

/-- The oracle standing in for Python `random` in the legacy fallback path
of `calculate_udf`. -/
structure RNG where
  uniform : ℚ → ℚ → ℚ
  randint : Int → Int → Int

/-- `v * random.uniform(a, b)`: multiplying a non-number by a float raises
`TypeError`. -/
def pyMulQ (v : PyVal) (q : ℚ) : Except PyErr PyVal :=
  match v with
  | PyVal.num a => Except.ok (PyVal.num (a * q))
  | _ => Except.error PyErr.typeError

/-- The code reached when the per-level branches of the legacy fallback in
`calculate_udf` fall through: the custom-formula branch (string-built SQL
with no parameter binding, then a random placeholder), else `return 0`. -/
def fallback_tail (rng : RNG) (db : DB) (ct : Option String) (params : Option PyDict) :
    Except PyErr PyVal := do
  if ct = some "custom" then do
    let formula ← pgetOpt params "formula" PyVal.pynone
    if truthy formula then
      match (match formula with | PyVal.str s => db.evalExpr s [] | _ => none) with
      | some v => pure v
      | none => pure (PyVal.num (rng.uniform 100 1000))
    else pure (PyVal.num (rng.uniform 100 1000))
  else pure (PyVal.num 0)

/-- The legacy backward-compatibility fallback of `calculate_udf`
(`backend/report/routes.py`), reached when no calculation function is
registered for `(calculation_type, aggregation_level)`: per-level demo
branches producing random jitter, then the custom branch, then `return 0`. -/
def calculate_udf_fallback (rng : RNG) (db : DB) (r : PyRecord) (bm : String)
    (sf : Option String) (ct : Option String) (params : Option PyDict)
    (al : String) : Except PyErr PyVal :=
  if al = "deal" then
    if ct = some "sum" then
      if bm = "deal" && sf = some "total_amount" then do
        let v ← getattrE r "total_amount"
        pyMulQ v (rng.uniform (9/10) (11/10))
      else fallback_tail rng db ct params
    else if ct = some "average" then
      if optTruthy sf then
        pyMulQ (getattrD r (sf.getD "") (PyVal.num 0)) (rng.uniform (2/5) (3/5))
      else fallback_tail rng db ct params
    else fallback_tail rng db ct params
  else if al = "group" then
    if ct = some "count" then pure (PyVal.num ((rng.randint 3 8 : Int) : ℚ))
    else fallback_tail rng db ct params
  else if al = "tranche" then
    if ct = some "min" then
      if optTruthy sf then
        pyMulQ (getattrD r (sf.getD "") (PyVal.num 0)) (rng.uniform (7/10) (9/10))
      else fallback_tail rng db ct params
    else if ct = some "max" then
      if optTruthy sf then
        pyMulQ (getattrD r (sf.getD "") (PyVal.num 0)) (rng.uniform (11/10) (13/10))
      else fallback_tail rng db ct params
    else fallback_tail rng db ct params
  else fallback_tail rng db ct params

/-- `calculate_udf` from `backend/report/routes.py`: resolve the
calculation function for `(calculation_type, aggregation_level)`; when one
is found, run it inside `try: ... except: return 0`; otherwise take the
legacy fallback path. -/
def calculate_udf (rng : RNG) (db : DB) (r : PyRecord) (bm : String) (sf : Option String)
    (ct : Option String) (params : Option PyDict) (cycle : String) (al : String) :
    Except PyErr PyVal :=
  match get_calculation_function CALCULATIONS ct (some al) with
  | some f => Except.ok (pyTry (f db r bm sf params cycle) (PyVal.num 0))
  | none => calculate_udf_fallback rng db r bm sf ct params al

/-- A stored UDF field spec, one entry of `udf_json["fields"]` as produced
by `UDFField.dict()` in `backend/udf/routes.py` (all keys present, the
optional ones possibly `None`). -/
structure UDFField where
  name : String
  source_field : Option String
  calculation_type : Option String
  calculation_params : Option PyDict
deriving DecidableEq, Repr

/-- A row of the `udfs` table (`backend/udf/models.py`); the denormalized
`udf_json` blob is represented by its authoritative `fields` list. -/
structure UDFModel where
  id : Nat
  name : String
  description : Option String
  base_model : String
  aggregation_level : String
  fields : List UDFField
deriving DecidableEq, Repr

/-- A row of the `report_layouts` table together with its `report_udfs`
association rows (`backend/report/models.py`); of `layout_json` only the
`fields` projection list is used by the engine. -/
structure ReportLayoutModel where
  id : Nat
  name : String
  description : Option String
  primary_model : String
  aggregation_level : String
  layout_fields : List String
  udf_ids : List Nat
deriving DecidableEq, Repr

/-- The persisted application state: the `udfs` and `report_layouts`
tables. -/
structure AppState where
  udfs : List UDFModel
  layouts : List ReportLayoutModel
deriving DecidableEq, Repr

/-- `report_layout.udfs`: the UDF rows attached through the association
table, in association order. -/
def resolved_udfs (st : AppState) (L : ReportLayoutModel) : List UDFModel :=
  L.udf_ids.filterMap (fun i => st.udfs.find? (fun u => u.id = i))

/-- `POST /reports/run` request body. -/
structure ReportDataRequest where
  report_id : Nat
  cycle_code : String
  filters : Option (List (String × PyVal))
deriving DecidableEq, Repr

/-- `POST /reports/run` response body. -/
structure ReportDataResponse where
  report_name : String
  cycle_code : String
  data : List PyDict
deriving DecidableEq, Repr

/-- An `HTTPException(status_code, detail)`. -/
inductive HErr where
  | http (code : Nat) (detail : String)
deriving DecidableEq, Repr

/-- What a route invocation can end in besides a response: a raised
`HTTPException` or an uncaught Python exception. -/
inductive RunErr where
  | http (code : Nat) (detail : String)
  | py (e : PyErr)
deriving DecidableEq, Repr

/-- The filter loop of `run_report`: each `(field, value)` request filter
whose field is an attribute of the primary model class adds an equality
filter to the query; unknown fields add nothing. -/
def apply_filters (pmc : ModelClass) (fs : List (String × PyVal)) (rows : List PyRecord) :
    List PyRecord :=
  fs.foldl
    (fun acc fv =>
      if (clsAttrs pmc).contains fv.1 then
        acc.filter (fun r => sqlEq (getattrD r fv.1 PyVal.pynone) fv.2)
      else acc)
    rows

/-- Whether a UDF field is included in the report: its bare name or its
qualified `<udf_name>.<field_name>` form appears in
`layout_json["fields"]`. -/
def requestedB (L : ReportLayoutModel) (u : UDFModel) (f : UDFField) : Bool :=
  L.layout_fields.contains f.name || L.layout_fields.contains (u.name ++ "." ++ f.name)

/-- The `(udf, field)` pairs visited by the nested UDF loops of
`run_report`, flattened in loop order. -/
def udf_field_pairs (udfs : List UDFModel) : List (UDFModel × UDFField) :=
  udfs.flatMap (fun u => u.fields.map (fun f => (u, f)))

/-- The seed of a result row: every column of the primary model, via
`getattr(base_record, column.name)`. -/
def base_data (pmc : ModelClass) (r : PyRecord) : PyDict :=
  pmc.columns.map (fun c => (c, getattrD r c PyVal.pynone))

/-- The body of the nested UDF loops of `run_report` for one base record:
for each field of each attached UDF, when requested, compute
`calculate_udf` and store the result under the qualified key. -/
def apply_udf_fields (rng : RNG) (db : DB) (L : ReportLayoutModel) (cycle : String)
    (r : PyRecord) : List (UDFModel × UDFField) → PyDict → Except PyErr PyDict
  | [], row => Except.ok row
  | (u, f) :: rest, row =>
    if requestedB L u f then
      match calculate_udf rng db r u.base_model f.source_field f.calculation_type
          f.calculation_params cycle u.aggregation_level with
      | Except.error e => Except.error e
      | Except.ok v =>
        apply_udf_fields rng db L cycle r rest (dictSet row (u.name ++ "." ++ f.name) v)
    else apply_udf_fields rng db L cycle r rest row

/-- One result row of `run_report`: base columns first, then the requested
calculated fields. -/
def build_row (rng : RNG) (db : DB) (st : AppState) (L : ReportLayoutModel)
    (pmc : ModelClass) (cycle : String) (r : PyRecord) : Except PyErr PyDict :=
  apply_udf_fields rng db L cycle r (udf_field_pairs (resolved_udfs st L)) (base_data pmc r)

/-- The record loop of `run_report`, appending one row per base record. -/
def build_rows (rng : RNG) (db : DB) (st : AppState) (L : ReportLayoutModel)
    (pmc : ModelClass) (cycle : String) : List PyRecord → Except PyErr (List PyDict)
  | [] => Except.ok []
  | r :: rest =>
    match build_row rng db st L pmc cycle r with
    | Except.error e => Except.error e
    | Except.ok row =>
      match build_rows rng db st L pmc cycle rest with
      | Except.error e => Except.error e
      | Except.ok rows => Except.ok (row :: rows)

/-- `run_report` (`POST /reports/run`) from `backend/report/routes.py`. -/
def run_report (rng : RNG) (st : AppState) (db : DB) (req : ReportDataRequest) :
    Except RunErr ReportDataResponse :=
  match st.layouts.find? (fun L => L.id = req.report_id) with
  | none => Except.error (RunErr.http 404 "Report layout not found")
  | some L =>
    match get_model_class_s L.primary_model with
    | none =>
      Except.error (RunErr.http 400 ("Primary model " ++ L.primary_model ++ " not found"))
    | some pmc =>
      let filtered := apply_filters pmc (req.filters.getD []) (dbRows db pmc.name)
      match build_rows rng db st L pmc req.cycle_code filtered with
      | Except.error e => Except.error (RunErr.py e)
      | Except.ok rows =>
        Except.ok { report_name := L.name, cycle_code := req.cycle_code, data := rows }

/-- The detail text of the aggregation-level mismatch error raised by
`create_report_layout` and `update_report_layout` (quotes elided). -/
def mismatch_detail (uid : Nat) (ulvl llvl : String) : String :=
  "UDF with ID " ++ toString uid ++ " has aggregation level " ++ ulvl ++
    " which is incompatible with report aggregation level " ++ llvl

/-- The detail text of the missing-UDF error of the layout routes. -/
def udf_notfound_detail (uid : Nat) : String :=
  "UDF with ID " ++ toString uid ++ " not found"

/-- The UDF-validation loop shared by `create_report_layout` and
`update_report_layout`: look every requested UDF id up, fail with 404 when
absent, fail with 400 when its aggregation level differs from the
layout's, collect the rows otherwise. -/
def validate_layout_udfs (st : AppState) (lvl : String) :
    List Nat → Except HErr (List UDFModel)
  | [] => Except.ok []
  | uid :: rest =>
    match st.udfs.find? (fun u => u.id = uid) with
    | none => Except.error (HErr.http 404 (udf_notfound_detail uid))
    | some u =>
      if u.aggregation_level ≠ lvl then
        Except.error (HErr.http 400 (mismatch_detail uid u.aggregation_level lvl))
      else
        match validate_layout_udfs st lvl rest with
        | Except.error e => Except.error e
        | Except.ok us => Except.ok (u :: us)

/-- `POST /reports` and `PUT /reports/:id` request body
(`ReportLayoutCreate`/`ReportLayoutUpdate`). -/
structure ReportLayoutCreate where
  name : String
  description : Option String
  primary_model : String
  aggregation_level : String
  udf_ids : List Nat
  layout_fields : List String
deriving DecidableEq, Repr

/-- The autoincrement primary key the store would assign to a new layout. -/
def next_layout_id (st : AppState) : Nat :=
  (st.layouts.map (fun L => L.id)).foldl max 0 + 1

/-- `create_report_layout` (`POST /reports`) from
`backend/report/routes.py`: validate the primary model, require an
aggregation level, validate every attached UDF, and only then insert the
layout and its association rows.  An error leaves the store untouched (the
session is only flushed by the final commit). -/
def create_report_layout (st : AppState) (lc : ReportLayoutCreate) :
    Except HErr (AppState × ReportLayoutModel) :=
  match get_model_class_s lc.primary_model with
  | none => Except.error (HErr.http 400 ("Primary model " ++ lc.primary_model ++ " not found"))
  | some _ =>
    if lc.aggregation_level = "" then
      Except.error (HErr.http 400 "Aggregation level is required")
    else
      match validate_layout_udfs st lc.aggregation_level lc.udf_ids with
      | Except.error e => Except.error e
      | Except.ok udfs =>
        let L : ReportLayoutModel :=
          { id := next_layout_id st
            name := lc.name
            description := lc.description
            primary_model := lc.primary_model
            aggregation_level := lc.aggregation_level
            layout_fields := lc.layout_fields
            udf_ids := udfs.map (fun u => u.id) }
        Except.ok ({ st with layouts := st.layouts ++ [L] }, L)

/-- `update_report_layout` (`PUT /reports/:id`) from
`backend/report/routes.py`: same validations as create; the stored row and
its associations are only mutated after every check has passed. -/
def update_report_layout (st : AppState) (rid : Nat) (lu : ReportLayoutCreate) :
    Except HErr (AppState × ReportLayoutModel) :=
  match st.layouts.find? (fun L => L.id = rid) with
  | none => Except.error (HErr.http 404 "Report layout not found")
  | some L0 =>
    match get_model_class_s lu.primary_model with
    | none =>
      Except.error (HErr.http 400 ("Primary model " ++ lu.primary_model ++ " not found"))
    | some _ =>
      if lu.aggregation_level = "" then
        Except.error (HErr.http 400 "Aggregation level is required")
      else
        match validate_layout_udfs st lu.aggregation_level lu.udf_ids with
        | Except.error e => Except.error e
        | Except.ok udfs =>
          let L : ReportLayoutModel :=
            { L0 with
              name := lu.name
              description := lu.description
              primary_model := lu.primary_model
              aggregation_level := lu.aggregation_level
              layout_fields := lu.layout_fields
              udf_ids := udfs.map (fun u => u.id) }
          Except.ok
            ({ st with layouts := st.layouts.map (fun x => if x.id = rid then L else x) }, L)

/-- `delete_report_layout` (`DELETE /reports/:id`) from
`backend/report/routes.py`: 404 when absent, else remove the layout row
(and, through it, its association rows). -/
def delete_report_layout (st : AppState) (rid : Nat) : Except HErr (AppState × Bool) :=
  match st.layouts.find? (fun L => L.id = rid) with
  | none => Except.error (HErr.http 404 "Report layout not found")
  | some _ =>
    Except.ok ({ st with layouts := st.layouts.filter (fun L => !(L.id = rid : Bool)) }, true)

/-- The referential-integrity error detail of `delete_udf`. -/
def refintegrity_detail : String :=
  "Cannot delete UDF that is used by reports. Remove from reports first."

/-- `delete_udf` (`DELETE /udfs/:id`) from `backend/udf/routes.py`: 404
when absent; 400 when any report layout still references the UDF through
the `report_layouts` backref; else remove the row. -/
def delete_udf (st : AppState) (uid : Nat) : Except HErr (AppState × Bool) :=
  match st.udfs.find? (fun u => u.id = uid) with
  | none => Except.error (HErr.http 404 "UDF not found")
  | some _ =>
    if 0 < (st.layouts.filter (fun L => L.udf_ids.contains uid)).length then
      Except.error
        (HErr.http 400 refintegrity_detail)
    else
      Except.ok ({ st with udfs := st.udfs.filter (fun u => !(u.id = uid : Bool)) }, true)

/-- `get_udf` (`GET /udfs/:id`) from `backend/udf/routes.py`: the stored
UDF row, or 404. -/
def get_udf (st : AppState) (uid : Nat) : Except HErr UDFModel :=
  match st.udfs.find? (fun u => u.id = uid) with
  | none => Except.error (HErr.http 404 "UDF not found")
  | some u => Except.ok u

/-- Modelled from the spec: the fuzzy-match fallback as §4.2 words it,
searching the candidate entity's attribute names in *declaration order*
(the order of `backend/models/financial.py`) with the same
case-insensitive substring-or-suffix test; used only to compare the spec's
ordering against the embedded code's. -/
def fuzzy_list_specordered (attrs : List String) (wantLower : String) : Option String :=
  (attrs.filter (fuzzyPred wantLower)).head?

/-! ### Concrete fixtures used by witnesses and counterexamples -/

/-- A degenerate random oracle. -/
def rng0 : RNG := { uniform := fun _ _ => 0, randint := fun _ _ => 0 }

/-- An empty store. -/
def dbEmpty : DB := { tables := [], evalExpr := fun _ _ => none }

/-- A record with no attributes at all. -/
def rec0 : PyRecord := { cls := [], attrs := [] }

/-- A concrete `Deal` row. -/
def dealRec : PyRecord :=
  { cls := clsAttrs Deal
    attrs := [("id", PyVal.num 1), ("deal_name", PyVal.str "D1"), ("issuer", PyVal.str "I1"),
              ("deal_date", PyVal.str "2023-01-01"), ("total_amount", PyVal.num 1000),
              ("currency", PyVal.str "USD"), ("status", PyVal.str "active")] }

/-- A concrete `Tranche` row related to `dealRec`. -/
def trancheRow1 : PyRecord :=
  { cls := clsAttrs Tranche
    attrs := [("id", PyVal.num 11), ("deal_id", PyVal.num 1), ("tranche_name", PyVal.str "A"),
              ("amount", PyVal.num 400), ("interest_rate", PyVal.num 5),
              ("maturity_date", PyVal.str "2030-01-01"), ("seniority", PyVal.str "senior")] }

/-- A second concrete `Tranche` row related to `dealRec`. -/
def trancheRow2 : PyRecord :=
  { cls := clsAttrs Tranche
    attrs := [("id", PyVal.num 12), ("deal_id", PyVal.num 1), ("tranche_name", PyVal.str "B"),
              ("amount", PyVal.num 600), ("interest_rate", PyVal.num 6),
              ("maturity_date", PyVal.str "2031-01-01"), ("seniority", PyVal.str "junior")] }

/-- A store holding `dealRec` and its two tranches. -/
def dbDeals : DB :=
  { tables := [("deal", [dealRec]), ("tranche", [trancheRow1, trancheRow2])]
    evalExpr := fun _ _ => none }

/-- A field spec whose `(calculation_type, aggregation_level)` pair
(`sum`, `group`) has no registered implementation. -/
def fMissing : UDFField :=
  { name := "x", source_field := none, calculation_type := some "sum",
    calculation_params := none }

/-- A UDF at level `group` holding `fMissing`. -/
def uMissing : UDFModel :=
  { id := 1, name := "U", description := none, base_model := "deal",
    aggregation_level := "group", fields := [fMissing] }

/-- A layout at level `group` over `deal` requesting `x` by bare name. -/
def LMissing : ReportLayoutModel :=
  { id := 1, name := "R", description := none, primary_model := "deal",
    aggregation_level := "group", layout_fields := ["x"], udf_ids := [1] }

/-- The state holding `uMissing` and `LMissing`. -/
def stMissing : AppState := { udfs := [uMissing], layouts := [LMissing] }

/-- A run request against `LMissing`. -/
def req0 : ReportDataRequest := { report_id := 1, cycle_code := "12023", filters := none }

/-- A plain UDF fixture for the delete claims. -/
def uW : UDFModel :=
  { id := 7, name := "W", description := none, base_model := "deal",
    aggregation_level := "deal", fields := [] }

/-- A layout referencing `uW`. -/
def LW : ReportLayoutModel :=
  { id := 3, name := "RW", description := none, primary_model := "deal",
    aggregation_level := "deal", layout_fields := [], udf_ids := [7] }

/-! ### Shared lemmas -/

/-- `resolve_relationship_field` is the first of the four candidate
foreign-key names that exists on the related class. -/
theorem resolve_relationship_field_eq_find (rc : ModelClass) (bm : String) :
    resolve_relationship_field rc bm =
      (candidate_fk_fields bm).find? (fun f => (clsAttrs rc).contains f) := by
  unfold resolve_relationship_field candidate_fk_fields
  by_cases h : (bm ++ "_id") ∈ clsAttrs rc
  · simp [h, List.find?]
  · simp [h, List.find?]

/-! ### C3 -/

/-- C3: for every calculation kind and aggregation level, resolving a
calculation implementation returns the implementation registered under the
exact `(kind, level)` key when one exists; otherwise the one registered
under the wildcard `(kind, None)` key when one exists; otherwise `None`
(the second clause covers both of the last two cases at once). -/
theorem claim_C3_resolve_order (reg : CalcRegistry) (ct al : Option String) :
    (∀ f, regGet reg (ct, al) = some f → get_calculation_function reg ct al = some f) ∧
    (regGet reg (ct, al) = none →
      get_calculation_function reg ct al = regGet reg (ct, none)) := by
  constructor
  · intro f h
    simp [get_calculation_function, h]
  · intro h
    simp [get_calculation_function, h]

/-- Witness for C3: with the startup registry, `(sum, deal)` resolves to the
exact registration and `(mapping, tranche)` falls back to the wildcard. -/
theorem claim_C3_resolve_order_witness :
    get_calculation_function CALCULATIONS (some "sum") (some "deal") = some sum_calculation ∧
    get_calculation_function CALCULATIONS (some "mapping") (some "tranche") =
      regGet CALCULATIONS (some "mapping", none) :=
  ⟨(claim_C3_resolve_order CALCULATIONS (some "sum") (some "deal")).1 sum_calculation rfl,
   (claim_C3_resolve_order CALCULATIONS (some "mapping") (some "tranche")).2 rfl⟩

/-! ### C5 -/

/-- C5: the sum, average and count calculations try the candidate
foreign-key names `<bm>_id`, `<bm.lower()>_id`, `id_<bm>`, `id_<bm.lower()>`
in exactly that order and use the first that exists on the related class;
when none exists, each of the three calculations returns the neutral
default 0. -/
theorem claim_C5_fk_inference :
    (∀ (rc : ModelClass) (bm : String),
      resolve_relationship_field rc bm =
        (candidate_fk_fields bm).find? (fun f => (clsAttrs rc).contains f)) ∧
    (∀ (db : DB) (r : PyRecord) (bm : String) (sf : Option String) (p : PyDict)
        (cycle : String) (rc : ModelClass),
      get_model_class (pget p "related_model" (PyVal.str "tranche")) = some rc →
      resolve_relationship_field rc bm = none →
      sum_calculation db r bm sf (some p) cycle = Except.ok (PyVal.num 0)) ∧
    (∀ (db : DB) (r : PyRecord) (bm : String) (sf : Option String) (p : PyDict)
        (cycle : String) (rc : ModelClass),
      get_model_class (pget p "related_model" (PyVal.str "tranche")) = some rc →
      resolve_relationship_field rc bm = none →
      average_calculation db r bm sf (some p) cycle = Except.ok (PyVal.num 0)) ∧
    (∀ (db : DB) (r : PyRecord) (bm : String) (sf : Option String) (p : PyDict)
        (cycle : String) (rc : ModelClass),
      get_model_class (pget p "related_model" (PyVal.str "deal")) = some rc →
      resolve_relationship_field rc bm = none →
      count_calculation db r bm sf (some p) cycle = Except.ok (PyVal.num 0)) := by
  refine ⟨resolve_relationship_field_eq_find, ?_, ?_, ?_⟩
  · intro db r bm sf p cycle rc hm hn
    simp [sum_calculation, pgetOpt, Bind.bind, Except.bind, hm, sum_body, hn, pyTry,
      Pure.pure, Except.pure]
  · intro db r bm sf p cycle rc hm hn
    simp [average_calculation, pgetOpt, Bind.bind, Except.bind, hm, average_body, hn, pyTry,
      Pure.pure, Except.pure]
  · intro db r bm sf p cycle rc hm hn
    simp [count_calculation, pgetOpt, Bind.bind, Except.bind, hm, count_body, hn, pyTry,
      Pure.pure, Except.pure]

/-- Witness for C5: `cashflow` exposes none of the four candidate keys for
base model `deal`, and the three calculations each return 0 there. -/
theorem claim_C5_fk_inference_witness :
    resolve_relationship_field CashFlow "deal" =
      (candidate_fk_fields "deal").find? (fun f => (clsAttrs CashFlow).contains f) ∧
    sum_calculation dbEmpty dealRec "deal" none
      (some [("related_model", PyVal.str "cashflow")]) "" = Except.ok (PyVal.num 0) ∧
    average_calculation dbEmpty dealRec "deal" none
      (some [("related_model", PyVal.str "cashflow")]) "" = Except.ok (PyVal.num 0) ∧
    count_calculation dbEmpty dealRec "deal" none
      (some [("related_model", PyVal.str "cashflow")]) "" = Except.ok (PyVal.num 0) := by
  refine ⟨(claim_C5_fk_inference).1 CashFlow "deal", ?_, ?_, ?_⟩
  · exact (claim_C5_fk_inference).2.1 dbEmpty dealRec "deal" none _ "" CashFlow rfl (by decide)
  · exact (claim_C5_fk_inference).2.2.1 dbEmpty dealRec "deal" none _ "" CashFlow rfl (by decide)
  · exact (claim_C5_fk_inference).2.2.2 dbEmpty dealRec "deal" none _ "" CashFlow rfl (by decide)

/-! ### C9 -/

/-- C9: deleting a UDF that is referenced by at least one report layout
fails with the referential-integrity client error (and, the route having
raised before any mutation, the store is untouched); deleting an
unreferenced UDF succeeds and removes exactly that row; deleting the same
id again fails with 404. -/
theorem claim_C9_delete_udf (st : AppState) (uid : Nat) (u : UDFModel)
    (hu : st.udfs.find? (fun x => x.id = uid) = some u) :
    ((∃ L ∈ st.layouts, L.udf_ids.contains uid = true) →
      delete_udf st uid = Except.error (HErr.http 400 refintegrity_detail)) ∧
    ((∀ L ∈ st.layouts, ¬ L.udf_ids.contains uid = true) →
      ∃ st2, delete_udf st uid = Except.ok (st2, true) ∧
        st2.udfs = st.udfs.filter (fun x => !(decide (x.id = uid))) ∧
        st2.layouts = st.layouts ∧
        delete_udf st2 uid = Except.error (HErr.http 404 "UDF not found")) := by
  constructor
  · rintro ⟨L, hL, hc⟩
    have hpos : 0 < (st.layouts.filter (fun L => L.udf_ids.contains uid)).length :=
      List.length_pos_of_mem (List.mem_filter.2 ⟨hL, hc⟩)
    simp [delete_udf, hu, hpos]
    exact ⟨L, hL, by simpa using hc⟩
  · intro h
    have hfil : st.layouts.filter (fun L => L.udf_ids.contains uid) = [] :=
      List.filter_eq_nil_iff.2 h
    have hfind : (st.udfs.filter (fun x => !(decide (x.id = uid)))).find?
        (fun x => x.id = uid) = none := by
      refine List.find?_eq_none.2 (fun x hx => ?_)
      have := (List.mem_filter.1 hx).2
      simpa using this
    refine ⟨{ st with udfs := st.udfs.filter (fun x => !(decide (x.id = uid))) },
      ?_, rfl, rfl, ?_⟩
    · simp [delete_udf, hu, hfil]
      intro a ha
      simpa using h a ha
    · simp [delete_udf, hfind]

/-- Witness for C9: with `uW` referenced by `LW` the delete fails with the
referential-integrity error; with the reference gone it succeeds, and a
second delete of the same id yields 404. -/
theorem claim_C9_delete_udf_witness :
    delete_udf (AppState.mk [uW] [LW]) 7 = Except.error (HErr.http 400 refintegrity_detail) ∧
    delete_udf (AppState.mk [uW] []) 7 = Except.ok (AppState.mk [] [], true) ∧
    delete_udf (AppState.mk [] []) 7 = Except.error (HErr.http 404 "UDF not found") := by
  refine ⟨(claim_C9_delete_udf (AppState.mk [uW] [LW]) 7 uW rfl).1
      ⟨LW, List.mem_singleton.2 rfl, by decide⟩, ?_⟩
  obtain ⟨st2, h1, h2, h3, h4⟩ :=
    (claim_C9_delete_udf (AppState.mk [uW] []) 7 uW rfl).2 (by simp)
  have hst2 : st2 = AppState.mk [] [] := by
    cases st2
    simp_all [uW]
  rw [hst2] at h1 h4
  exact ⟨h1, h4⟩

/-! ### C10 -/

/-- C10: deleting a report layout removes only that layout row (and with it
its UDF-association entries); the `udfs` table is unchanged and every UDF
definition is still retrievable, unchanged, afterwards. -/
theorem claim_C10_delete_layout_frame (st : AppState) (rid : Nat) (L : ReportLayoutModel)
    (hL : st.layouts.find? (fun x => x.id = rid) = some L) :
    ∃ st2, delete_report_layout st rid = Except.ok (st2, true) ∧
      st2.udfs = st.udfs ∧
      st2.layouts = st.layouts.filter (fun x => !(decide (x.id = rid))) ∧
      (∀ uid, get_udf st2 uid = get_udf st uid) := by
  have h2 : delete_report_layout st rid =
      Except.ok ({ st with layouts := st.layouts.filter (fun x => !(decide (x.id = rid))) },
        true) := by
    simp [delete_report_layout, hL]
  exact ⟨_, h2, rfl, rfl, fun uid => rfl⟩

/-- Witness for C10: deleting `LW` from a state also holding `uW` keeps the
UDF retrievable. -/
theorem claim_C10_delete_layout_frame_witness :
    ∃ st2, delete_report_layout (AppState.mk [uW] [LW]) 3 = Except.ok (st2, true) ∧
      st2.udfs = [uW] ∧
      st2.layouts = List.filter (fun x => !(decide (x.id = 3))) [LW] ∧
      (∀ uid, get_udf st2 uid = get_udf (AppState.mk [uW] [LW]) uid) :=
  claim_C10_delete_layout_frame (AppState.mk [uW] [LW]) 3 LW rfl

/-! ### C8 -/

/-- When every requested UDF id exists and at least one resolves to a UDF
whose aggregation level differs from the target level, the validation loop
fails with the 400 mismatch error naming a mismatching UDF. -/
theorem validate_layout_udfs_mismatch (st : AppState) (lvl : String) :
    ∀ ids : List Nat,
      (∀ uid ∈ ids, ∃ u, st.udfs.find? (fun x => x.id = uid) = some u) →
      (∃ uid ∈ ids, ∃ u, st.udfs.find? (fun x => x.id = uid) = some u ∧
        u.aggregation_level ≠ lvl) →
      ∃ uid u, uid ∈ ids ∧ st.udfs.find? (fun x => x.id = uid) = some u ∧
        u.aggregation_level ≠ lvl ∧
        validate_layout_udfs st lvl ids =
          Except.error (HErr.http 400 (mismatch_detail uid u.aggregation_level lvl)) := by
  intro ids
  induction ids with
  | nil => rintro _ ⟨uid, h, _⟩; exact absurd h (List.not_mem_nil uid)
  | cons a rest ih =>
    rintro hex hbad
    obtain ⟨ua, hua⟩ := hex a (List.mem_cons_self a rest)
    by_cases hmis : ua.aggregation_level = lvl
    · -- the head matches; the mismatch lives in the tail
      have hbadrest : ∃ uid ∈ rest, ∃ u, st.udfs.find? (fun x => x.id = uid) = some u ∧
          u.aggregation_level ≠ lvl := by
        obtain ⟨uid, hmem, u, hfind, hne⟩ := hbad
        rcases List.mem_cons.1 hmem with h | h
        · subst h
          rw [hua] at hfind
          cases hfind
          exact absurd hmis hne
        · exact ⟨uid, h, u, hfind, hne⟩
      obtain ⟨uid, u, hmem, hfind, hne, heq⟩ :=
        ih (fun uid h => hex uid (List.mem_cons_of_mem a h)) hbadrest
      refine ⟨uid, u, List.mem_cons_of_mem a hmem, hfind, hne, ?_⟩
      simp [validate_layout_udfs, hua, hmis, heq]
    · refine ⟨a, ua, List.mem_cons_self a rest, hua, hmis, ?_⟩
      simp [validate_layout_udfs, hua, hmis]

/-- C8: creating or updating a report layout whose requested UDFs all exist
but include one whose aggregation level differs from the layout's fails
with the 400 `InvalidRequest` error identifying the offending UDF; the
error is raised before any insert or mutation, so no layout is created or
modified. -/
theorem claim_C8_level_mismatch (st : AppState) (lc : ReportLayoutCreate) (rid : Nat)
    (L0 : ReportLayoutModel)
    (hpm : (get_model_class_s lc.primary_model).isSome)
    (hlvl : lc.aggregation_level ≠ "")
    (hex : ∀ uid ∈ lc.udf_ids, ∃ u, st.udfs.find? (fun x => x.id = uid) = some u)
    (hbad : ∃ uid ∈ lc.udf_ids, ∃ u, st.udfs.find? (fun x => x.id = uid) = some u ∧
      u.aggregation_level ≠ lc.aggregation_level)
    (hL0 : st.layouts.find? (fun x => x.id = rid) = some L0) :
    ∃ uid u, uid ∈ lc.udf_ids ∧ st.udfs.find? (fun x => x.id = uid) = some u ∧
      u.aggregation_level ≠ lc.aggregation_level ∧
      create_report_layout st lc =
        Except.error (HErr.http 400
          (mismatch_detail uid u.aggregation_level lc.aggregation_level)) ∧
      update_report_layout st rid lc =
        Except.error (HErr.http 400
          (mismatch_detail uid u.aggregation_level lc.aggregation_level)) := by
  obtain ⟨pmc, hpmc⟩ := Option.isSome_iff_exists.1 hpm
  obtain ⟨uid, u, hmem, hfind, hne, heq⟩ :=
    validate_layout_udfs_mismatch st lc.aggregation_level lc.udf_ids hex hbad
  refine ⟨uid, u, hmem, hfind, hne, ?_, ?_⟩
  · simp [create_report_layout, hpmc, hlvl, heq]
  · simp [update_report_layout, hL0, hpmc, hlvl, heq]

/-- Witness for C8: attaching the deal-level `uW` to a tranche-level layout
request is rejected by both create and update with the mismatch error. -/
theorem claim_C8_level_mismatch_witness :
    ∃ uid u, uid ∈ [7] ∧ (AppState.mk [uW] [LW]).udfs.find? (fun x => x.id = uid) = some u ∧
      u.aggregation_level ≠ "tranche" ∧
      create_report_layout (AppState.mk [uW] [LW])
        (ReportLayoutCreate.mk "R2" none "deal" "tranche" [7] []) =
        Except.error (HErr.http 400 (mismatch_detail uid u.aggregation_level "tranche")) ∧
      update_report_layout (AppState.mk [uW] [LW]) 3
        (ReportLayoutCreate.mk "R2" none "deal" "tranche" [7] []) =
        Except.error (HErr.http 400 (mismatch_detail uid u.aggregation_level "tranche")) :=
  claim_C8_level_mismatch (AppState.mk [uW] [LW])
    (ReportLayoutCreate.mk "R2" none "deal" "tranche" [7] []) 3 LW
    (by decide)
    (by decide)
    (fun uid h => by
      have : uid = 7 := by simpa using h
      exact ⟨uW, by simp [this, uW]⟩)
    ⟨7, by simp, uW, by simp [uW], by decide⟩
    rfl

/-! ### C7 -/

/-- The filter loop builds exactly the conjunction of the equality filters
whose field names are attributes of the primary model. -/
theorem apply_filters_eq_filter (pmc : ModelClass) :
    ∀ (fs : List (String × PyVal)) (rows : List PyRecord),
      apply_filters pmc fs rows = rows.filter
        (fun r => fs.all (fun fv =>
          !(clsAttrs pmc).contains fv.1 || sqlEq (getattrD r fv.1 PyVal.pynone) fv.2)) := by
  intro fs
  induction fs with
  | nil => intro rows; simp [apply_filters]
  | cons fv fs ih =>
    intro rows
    have hstep : apply_filters pmc (fv :: fs) rows =
        apply_filters pmc fs
          (if (clsAttrs pmc).contains fv.1 then
            rows.filter (fun r => sqlEq (getattrD r fv.1 PyVal.pynone) fv.2)
          else rows) := by
      simp [apply_filters]
    rw [hstep, ih]
    by_cases hc : fv.1 ∈ clsAttrs pmc
    · rw [if_pos (by simpa using hc), List.filter_filter]
      apply List.filter_congr
      intro r _
      simp [List.all_cons, hc]
      exact Bool.and_comm _ _
    · rw [if_neg (by simpa using hc)]
      apply List.filter_congr
      intro r _
      simp [List.all_cons, hc]

/-- Filters naming only unknown attributes leave the base query unchanged. -/
theorem apply_filters_unknown (pmc : ModelClass) (fs : List (String × PyVal))
    (rows : List PyRecord) (h : ∀ fv ∈ fs, ¬ fv.1 ∈ clsAttrs pmc) :
    apply_filters pmc fs rows = rows := by
  rw [apply_filters_eq_filter]
  apply List.filter_eq_self.2
  intro r _
  apply List.all_eq_true.2
  intro fv hfv
  simp [h fv hfv]

/-- C7: each ad-hoc `(field, value)` request filter naming a real attribute
of the primary model is applied as an equality filter on the base query
(their conjunction); filters naming unknown attributes are silently
ignored, so a request carrying only unknown filter fields runs exactly like
a request with no filters, raising no error. -/
theorem claim_C7_adhoc_filters :
    (∀ (pmc : ModelClass) (fs : List (String × PyVal)) (rows : List PyRecord),
      apply_filters pmc fs rows = rows.filter
        (fun r => fs.all (fun fv =>
          !(clsAttrs pmc).contains fv.1 || sqlEq (getattrD r fv.1 PyVal.pynone) fv.2))) ∧
    (∀ (pmc : ModelClass) (fs : List (String × PyVal)) (rows : List PyRecord),
      (∀ fv ∈ fs, ¬ fv.1 ∈ clsAttrs pmc) → apply_filters pmc fs rows = rows) ∧
    (∀ (rng : RNG) (st : AppState) (db : DB) (rid : Nat) (cyc : String)
        (fs : List (String × PyVal)) (L : ReportLayoutModel) (pmc : ModelClass),
      st.layouts.find? (fun x => x.id = rid) = some L →
      get_model_class_s L.primary_model = some pmc →
      (∀ fv ∈ fs, ¬ fv.1 ∈ clsAttrs pmc) →
      run_report rng st db (ReportDataRequest.mk rid cyc (some fs)) =
        run_report rng st db (ReportDataRequest.mk rid cyc none)) := by
  refine ⟨apply_filters_eq_filter, apply_filters_unknown, ?_⟩
  intro rng st db rid cyc fs L pmc hL hpm hunk
  simp only [run_report, hL, hpm]
  rw [show ((some fs).getD ([] : List (String × PyVal))) = fs from rfl]
  rw [show ((none : Option (List (String × PyVal))).getD []) = [] from rfl]
  rw [apply_filters_unknown pmc fs _ hunk]
  rw [show apply_filters pmc [] (dbRows db pmc.name) = dbRows db pmc.name from rfl]

/-- Witness for C7: a `status` filter on `deal` filters the rows, a bogus
field does nothing, and a run with only bogus filters equals the
unfiltered run. -/
theorem claim_C7_adhoc_filters_witness :
    apply_filters Deal [("status", PyVal.str "active")] [dealRec] =
      List.filter
        (fun r => [("status", PyVal.str "active")].all (fun fv =>
          !(clsAttrs Deal).contains fv.1 || sqlEq (getattrD r fv.1 PyVal.pynone) fv.2))
        [dealRec] ∧
    apply_filters Deal [("bogus", PyVal.num 1)] [dealRec] = [dealRec] ∧
    run_report rng0 stMissing dbDeals (ReportDataRequest.mk 1 "12023" (some [("bogus", PyVal.num 1)])) =
      run_report rng0 stMissing dbDeals (ReportDataRequest.mk 1 "12023" none) := by
  refine ⟨claim_C7_adhoc_filters.1 Deal _ _, claim_C7_adhoc_filters.2.1 Deal _ _ ?_, ?_⟩
  · intro fv h
    simp at h
    simp [h, clsAttrs, Deal]
  · refine claim_C7_adhoc_filters.2.2 rng0 stMissing dbDeals 1 "12023" _ LMissing Deal rfl rfl ?_
    intro fv h
    simp at h
    simp [h, clsAttrs, Deal]

/-! ### C6: order lemmas for the `dir` sort -/

/-- `listLeB` is reflexive. -/
theorem listLeB_refl : ∀ as : List Char, listLeB as as = true
  | [] => rfl
  | a :: as => by simp [listLeB, listLeB_refl as]

/-- `listLeB` is total. -/
theorem listLeB_total : ∀ as bs : List Char, listLeB as bs = true ∨ listLeB bs as = true
  | [], _ => Or.inl rfl
  | _ :: _, [] => Or.inr rfl
  | a :: as, b :: bs => by
    by_cases hab : a = b
    · subst hab
      simpa [listLeB] using listLeB_total as bs
    · rcases Ne.lt_or_lt hab with h | h
      · exact Or.inl (by simp [listLeB, hab, h])
      · exact Or.inr (by simp [listLeB, Ne.symm hab, h])

/-- `listLeB` is transitive. -/
theorem listLeB_trans : ∀ as bs cs : List Char,
    listLeB as bs = true → listLeB bs cs = true → listLeB as cs = true
  | [], _, _ => fun _ _ => rfl
  | _ :: _, [], _ => fun h _ => by simp [listLeB] at h
  | _ :: _, _ :: _, [] => fun _ h => by simp [listLeB] at h
  | a :: as, b :: bs, c :: cs => by
    intro h1 h2
    by_cases hab : a = b
    · subst hab
      by_cases hac : a = c
      · subst hac
        simp [listLeB] at h1 h2 ⊢
        exact listLeB_trans as bs cs h1 h2
      · simpa [listLeB, hac] using h2
    · have hab2 : a < b := by simpa [listLeB, hab] using h1
      by_cases hbc : b = c
      · subst hbc
        simp [listLeB, hab] at h1 ⊢
        simpa [ne_of_lt hab2] using h1
      · have hbc2 : b < c := by simpa [listLeB, hbc] using h2
        have hac2 : a < c := lt_trans hab2 hbc2
        simp [listLeB, ne_of_lt hac2, hac2]

/-- `strLeB` is reflexive. -/
theorem strLeB_refl (s : String) : strLeB s s = true :=
  listLeB_refl s.toList

/-- `strLeB` is total. -/
theorem strLeB_total (s t : String) : strLeB s t = true ∨ strLeB t s = true :=
  listLeB_total s.toList t.toList

/-- `strLeB` is transitive. -/
theorem strLeB_trans {s t u : String} (h1 : strLeB s t = true) (h2 : strLeB t u = true) :
    strLeB s u = true :=
  listLeB_trans s.toList t.toList u.toList h1 h2

/-- Membership through `orderedInsertB`. -/
theorem mem_orderedInsertB (a x : String) : ∀ l : List String,
    (x ∈ orderedInsertB a l ↔ x = a ∨ x ∈ l)
  | [] => by simp [orderedInsertB]
  | b :: l => by
    by_cases h : strLeB a b = true
    · simp [orderedInsertB, h]
    · simp [orderedInsertB, h, mem_orderedInsertB a x l]
      tauto

/-- Membership through `insertionSortB`. -/
theorem mem_insertionSortB (x : String) : ∀ l : List String,
    (x ∈ insertionSortB l ↔ x ∈ l)
  | [] => Iff.rfl
  | a :: l => by
    simp [insertionSortB, mem_orderedInsertB, mem_insertionSortB x l]

/-- `orderedInsertB` preserves sortedness. -/
theorem pairwise_orderedInsertB (a : String) : ∀ l : List String,
    List.Pairwise (fun s t => strLeB s t = true) l →
    List.Pairwise (fun s t => strLeB s t = true) (orderedInsertB a l)
  | [], _ => List.pairwise_singleton _ a
  | b :: l, h => by
    rcases List.pairwise_cons.1 h with ⟨hb, hl⟩
    by_cases hle : strLeB a b = true
    · rw [orderedInsertB, if_pos hle]
      refine List.pairwise_cons.2 ⟨?_, h⟩
      intro x hx
      rcases List.mem_cons.1 hx with rfl | hx
      · exact hle
      · exact strLeB_trans hle (hb x hx)
    · rw [orderedInsertB, if_neg hle]
      refine List.pairwise_cons.2 ⟨?_, pairwise_orderedInsertB a l hl⟩
      intro x hx
      rcases (mem_orderedInsertB a x l).1 hx with rfl | hx
      · rcases strLeB_total x b with h1 | h1
        · exact absurd h1 hle
        · exact h1
      · exact hb x hx

/-- The `dir` sort is sorted under `strLeB`. -/
theorem pairwise_insertionSortB : ∀ l : List String,
    List.Pairwise (fun s t => strLeB s t = true) (insertionSortB l)
  | [] => List.Pairwise.nil
  | a :: l => pairwise_orderedInsertB a (insertionSortB l) (pairwise_insertionSortB l)

/-- A successful fuzzy match is a matching attribute that is minimal in the
alphabetical order among all matching attributes. -/
theorem fuzzy_list_min (attrs : List String) (w a : String)
    (h : fuzzy_list attrs w = some a) :
    a ∈ attrs ∧ fuzzyPred w a = true ∧
      ∀ b ∈ attrs, fuzzyPred w b = true → strLeB a b = true := by
  unfold fuzzy_list at h
  rcases hfil : (pyDir attrs).filter (fuzzyPred w) with _ | ⟨a2, t⟩
  · rw [hfil] at h
    simp at h
  · rw [hfil] at h
    have ha : a2 = a := by simpa using h
    rw [ha] at hfil
    clear h ha
    have hmem : a ∈ (pyDir attrs).filter (fuzzyPred w) := by
      rw [hfil]; exact List.mem_cons_self a t
    have hpair : List.Pairwise (fun s t => strLeB s t = true)
        ((pyDir attrs).filter (fuzzyPred w)) :=
      (pairwise_insertionSortB attrs).filter (fuzzyPred w)
    refine ⟨?_, (List.mem_filter.1 hmem).2, ?_⟩
    · exact (mem_insertionSortB a attrs).1 (List.mem_filter.1 hmem).1
    · intro b hb hpred
      have hbf : b ∈ (pyDir attrs).filter (fuzzyPred w) :=
        List.mem_filter.2 ⟨(mem_insertionSortB b attrs).2 hb, hpred⟩
      rw [hfil] at hbf hpair
      rcases List.mem_cons.1 hbf with rfl | hbf
      · exact strLeB_refl b
      · exact (List.pairwise_cons.1 hpair).1 b hbf

/-- A failed fuzzy match means no attribute matches. -/
theorem fuzzy_list_nomatch (attrs : List String) (w : String)
    (h : fuzzy_list attrs w = none) :
    ∀ b ∈ attrs, fuzzyPred w b = false := by
  unfold fuzzy_list at h
  rw [List.head?_eq_none_iff] at h
  intro b hb
  by_contra hcon
  have : b ∈ (pyDir attrs).filter (fuzzyPred w) :=
    List.mem_filter.2 ⟨(mem_insertionSortB b attrs).2 hb, by simpa using hcon⟩
  rw [h] at this
  exact List.not_mem_nil b this

/-- When the exact `field_to_sum` is absent and the fuzzy match finds
nothing, `sum_calculation` returns the neutral default 0. -/
theorem sum_calculation_no_field_match (db : DB) (r : PyRecord) (bm : String)
    (sf : Option String) (p : PyDict) (cycle : String) (rc : ModelClass) (s : String)
    (hm : get_model_class (pget p "related_model" (PyVal.str "tranche")) = some rc)
    (hfts : pget p "field_to_sum" (PyVal.str "amount") = PyVal.str s)
    (hc : ¬ s ∈ clsAttrs rc)
    (hf : fuzzy_match rc (strLower s) = none) :
    sum_calculation db r bm sf (some p) cycle = Except.ok (PyVal.num 0) := by
  simp only [sum_calculation, pgetOpt, Bind.bind, Except.bind, hm, hfts]
  cases hrel : resolve_relationship_field rc bm with
  | none => simp [sum_body, hrel, pyTry, Pure.pure, Except.pure]
  | some relf =>
    by_cases hb : truthy (getattrD r "id" PyVal.pynone) = true
    · simp [sum_body, hrel, hb, asStrE, Bind.bind, Except.bind, hc, hf, pyTry,
        Pure.pure, Except.pure]
    · simp [sum_body, hrel, hb, pyTry, Pure.pure, Except.pure]

/-- When the requested field is absent from the base record and the fuzzy
match finds nothing, `min_calculation` returns the neutral default 0. -/
theorem min_calculation_no_field_match (db : DB) (r : PyRecord) (bm : String)
    (sf : Option String) (p : PyDict) (cycle : String) (s : String)
    (hp : pget p "field_to_min" (optStrVal sf) = PyVal.str s)
    (hs : s ≠ "")
    (hc : ¬ s ∈ r.cls)
    (hf : fuzzy_list r.cls (strLower s) = none) :
    min_calculation db r bm sf (some p) cycle = Except.ok (PyVal.num 0) := by
  simp [min_calculation, pgetOpt, Bind.bind, Except.bind, hp, truthy, hs, asStrE, hc, hf,
    Pure.pure, Except.pure]

/-- C6 (amended): the fuzzy fallback searches the candidate attribute names
case-insensitively for substring-or-suffix matches of the requested name
and uses the first match in Python `dir` order, which is the
*alphabetically sorted* order of the attribute names — not their
declaration order; when nothing matches, the calculations fall back to the
neutral default 0 (shown for `sum_calculation` and `min_calculation`, the
two implementations the claim cites). -/
theorem claim_C6_fuzzy_first_alphabetical :
    (∀ (attrs : List String) (w a : String), fuzzy_list attrs w = some a →
      a ∈ attrs ∧ fuzzyPred w a = true ∧
        ∀ b ∈ attrs, fuzzyPred w b = true → strLeB a b = true) ∧
    (∀ (attrs : List String) (w : String), fuzzy_list attrs w = none →
      ∀ b ∈ attrs, fuzzyPred w b = false) ∧
    (∀ (db : DB) (r : PyRecord) (bm : String) (sf : Option String) (p : PyDict)
        (cycle : String) (rc : ModelClass) (s : String),
      get_model_class (pget p "related_model" (PyVal.str "tranche")) = some rc →
      pget p "field_to_sum" (PyVal.str "amount") = PyVal.str s →
      ¬ s ∈ clsAttrs rc → fuzzy_match rc (strLower s) = none →
      sum_calculation db r bm sf (some p) cycle = Except.ok (PyVal.num 0)) ∧
    (∀ (db : DB) (r : PyRecord) (bm : String) (sf : Option String) (p : PyDict)
        (cycle : String) (s : String),
      pget p "field_to_min" (optStrVal sf) = PyVal.str s → s ≠ "" →
      ¬ s ∈ r.cls → fuzzy_list r.cls (strLower s) = none →
      min_calculation db r bm sf (some p) cycle = Except.ok (PyVal.num 0)) :=
  ⟨fuzzy_list_min, fuzzy_list_nomatch, sum_calculation_no_field_match,
    min_calculation_no_field_match⟩

/-- Witness for the amended C6: on `Tranche` the request `a` fuzzy-matches
`amount`, the alphabetical minimum of the matching attribute names, and a
request that matches nothing makes `sum`/`min` return 0. -/
theorem claim_C6_fuzzy_first_alphabetical_witness :
    ("amount" ∈ clsAttrs Tranche ∧ fuzzyPred "a" "amount" = true ∧
      ∀ b ∈ clsAttrs Tranche, fuzzyPred "a" b = true → strLeB "amount" b = true) ∧
    (∀ b ∈ clsAttrs CashFlow, fuzzyPred "zzz" b = false) ∧
    sum_calculation dbEmpty dealRec "deal" none
      (some [("related_model", PyVal.str "tranche"), ("field_to_sum", PyVal.str "zzz")]) "" =
      Except.ok (PyVal.num 0) ∧
    min_calculation dbEmpty dealRec "deal" (some "qqq") (some []) "" =
      Except.ok (PyVal.num 0) := by
  refine ⟨claim_C6_fuzzy_first_alphabetical.1 (clsAttrs Tranche) "a" "amount" (by decide),
    claim_C6_fuzzy_first_alphabetical.2.1 (clsAttrs CashFlow) "zzz" (by decide),
    claim_C6_fuzzy_first_alphabetical.2.2.1 dbEmpty dealRec "deal" none _ "" Tranche "zzz"
      rfl rfl (by decide) (by decide),
    claim_C6_fuzzy_first_alphabetical.2.2.2 dbEmpty dealRec "deal" (some "qqq") [] "" "qqq"
      rfl (by decide) (by decide) (by decide)⟩

/-- Counterexample for C6 as stated: for `Tranche` and the requested name
`a`, the code's fuzzy match (over `dir`, i.e. alphabetical order) picks
`amount`, while the first match in declaration order would be `deal_id`;
concretely, `sum_calculation` sums `amount` (1000 over the two related
tranches) where the declaration-order choice would sum `deal_id` (2). -/
theorem claim_C6_counterexample :
    fuzzy_match Tranche "a" = some "amount" ∧
    fuzzy_list_specordered (clsAttrs Tranche) "a" = some "deal_id" ∧
    ¬ (("amount" : String) = "deal_id") ∧
    sum_calculation dbDeals dealRec "deal" (some "total_amount")
      (some [("related_model", PyVal.str "tranche"), ("field_to_sum", PyVal.str "a")]) "" =
      Except.ok (PyVal.num 1000) ∧
    ((relatedRows dbDeals Tranche "deal_id" (PyVal.num 1) "").filterMap
        (fun row => asNum (getattrD row "deal_id" PyVal.pynone))).sum = 2 ∧
    ¬ ((1000 : ℚ) = 2) := by
  refine ⟨by decide, by decide, by decide, ?_, ?_, by norm_num⟩
  · have hbody : sum_calculation dbDeals dealRec "deal" (some "total_amount")
        (some [("related_model", PyVal.str "tranche"), ("field_to_sum", PyVal.str "a")]) "" =
        Except.ok (if truthy (PyVal.num (List.sum [(400:ℚ), 600])) then
          PyVal.num (List.sum [(400:ℚ), 600]) else PyVal.num 0) := rfl
    rw [show List.sum [(400:ℚ), 600] = 1000 from by norm_num] at hbody
    rw [hbody]
    norm_num [truthy]
  · rw [show (relatedRows dbDeals Tranche "deal_id" (PyVal.num 1) "").filterMap
        (fun row => asNum (getattrD row "deal_id" PyVal.pynone)) = [(1:ℚ), 1] from by decide]
    norm_num

/-! ### C2 -/

/-- C2 (amended): an exception escaping a registered calculation
implementation is caught at the `calculate_udf` boundary and replaced by
the neutral default 0 for every kind — including `mapping`, whose
kind-specific `null` only arises from failures the implementation catches
itself; the run is never aborted by such an exception. -/
theorem claim_C2_boundary_zero (rng : RNG) (db : DB) (r : PyRecord) (bm : String)
    (sf : Option String) (ct : Option String) (params : Option PyDict) (cycle : String)
    (al : String) (f : CalcImpl) (e : PyErr)
    (hf : get_calculation_function CALCULATIONS ct (some al) = some f)
    (he : f db r bm sf params cycle = Except.error e) :
    calculate_udf rng db r bm sf ct params cycle al = Except.ok (PyVal.num 0) := by
  simp [calculate_udf, hf, pyTry, he]

/-- Witness for the amended C2: a `mapping` field whose stored
`calculation_params` is `null` makes `mapping_calculation` raise
`AttributeError`; the boundary replaces it with 0. -/
theorem claim_C2_boundary_zero_witness :
    calculate_udf rng0 dbEmpty rec0 "tranche" none (some "mapping") none "12023" "tranche" =
      Except.ok (PyVal.num 0) :=
  claim_C2_boundary_zero rng0 dbEmpty rec0 "tranche" none (some "mapping") none "12023"
    "tranche" mapping_calculation PyErr.attributeError rfl rfl

/-- Counterexample for C2 as stated: an exception raised inside the
`mapping` implementation (here: `params` stored as `null`, so
`params.get` raises `AttributeError` before the implementation's own
`try`) is replaced by the numeric 0 at the `calculate_udf` boundary, not by
the kind-specific `null` the claim requires for `mapping`. -/
theorem claim_C2_counterexample :
    get_calculation_function CALCULATIONS (some "mapping") (some "tranche") =
      some mapping_calculation ∧
    mapping_calculation dbEmpty rec0 "tranche" none none "12023" =
      Except.error PyErr.attributeError ∧
    calculate_udf rng0 dbEmpty rec0 "tranche" none (some "mapping") none "12023" "tranche" =
      Except.ok (PyVal.num 0) ∧
    ¬ (PyVal.num 0 = PyVal.pynone) :=
  ⟨rfl, rfl, rfl, by decide⟩

/-! ### C1/C4: the engine never raises and writes requested fields -/

/-- The tail of the legacy fallback returns 0 for non-`custom` kinds. -/
theorem fallback_tail_zero (rng : RNG) (db : DB) (params : Option PyDict) (ct : Option String)
    (h : ¬ (ct = some "custom")) :
    fallback_tail rng db ct params = Except.ok (PyVal.num 0) := by
  simp [fallback_tail, h, Pure.pure, Except.pure]

/-- With the registry as populated at startup, every `(kind, level)` pair
that reaches the legacy fallback misses all of its special branches, so the
fallback deterministically returns 0 (and cannot raise). -/
theorem calculate_udf_fallback_zero (rng : RNG) (db : DB) (r : PyRecord) (bm : String)
    (sf : Option String) (ct : Option String) (params : Option PyDict) (al : String)
    (h : get_calculation_function CALCULATIONS ct (some al) = none) :
    calculate_udf_fallback rng db r bm sf ct params al = Except.ok (PyVal.num 0) := by
  have hcustom : ¬(ct = some "custom") := by
    rintro rfl
    simp [get_calculation_function, regGet, CALCULATIONS, List.find?] at h
  unfold calculate_udf_fallback
  by_cases h1 : al = "deal"
  · subst h1
    have hsum : ¬(ct = some "sum") := by
      rintro rfl
      simp [get_calculation_function, regGet, CALCULATIONS, List.find?] at h
    have havg : ¬(ct = some "average") := by
      rintro rfl
      simp [get_calculation_function, regGet, CALCULATIONS, List.find?] at h
    simp [hsum, havg, fallback_tail_zero rng db params ct hcustom]
  · by_cases h2 : al = "group"
    · subst h2
      have hcount : ¬(ct = some "count") := by
        rintro rfl
        simp [get_calculation_function, regGet, CALCULATIONS, List.find?] at h
      simp [hcount, fallback_tail_zero rng db params ct hcustom]
    · by_cases h3 : al = "tranche"
      · subst h3
        have hmin : ¬(ct = some "min") := by
          rintro rfl
          simp [get_calculation_function, regGet, CALCULATIONS, List.find?] at h
        have hmax : ¬(ct = some "max") := by
          rintro rfl
          simp [get_calculation_function, regGet, CALCULATIONS, List.find?] at h
        simp [hmin, hmax, fallback_tail_zero rng db params ct hcustom]
      · simp [h1, h2, h3, fallback_tail_zero rng db params ct hcustom]

/-- A field whose `(kind, level)` has no registered implementation is
evaluated to exactly 0, without raising. -/
theorem calculate_udf_missing_zero (rng : RNG) (db : DB) (r : PyRecord) (bm : String)
    (sf : Option String) (ct : Option String) (params : Option PyDict) (cycle : String)
    (al : String)
    (h : get_calculation_function CALCULATIONS ct (some al) = none) :
    calculate_udf rng db r bm sf ct params cycle al = Except.ok (PyVal.num 0) := by
  rw [calculate_udf, h]
  exact calculate_udf_fallback_zero rng db r bm sf ct params al h

/-- `calculate_udf` never raises: registered implementations run inside the
`try/except` boundary, and the fallback always reaches its `return 0`. -/
theorem calculate_udf_total (rng : RNG) (db : DB) (r : PyRecord) (bm : String)
    (sf : Option String) (ct : Option String) (params : Option PyDict) (cycle : String)
    (al : String) :
    ∃ v, calculate_udf rng db r bm sf ct params cycle al = Except.ok v := by
  cases hgc : get_calculation_function CALCULATIONS ct (some al) with
  | some f =>
    exact ⟨pyTry (f db r bm sf params cycle) (PyVal.num 0), by rw [calculate_udf, hgc]⟩
  | none =>
    exact ⟨PyVal.num 0, calculate_udf_missing_zero rng db r bm sf ct params cycle al hgc⟩

/-- Looking up the key just set. -/
theorem dictLookup_dictSet_self (k : String) (v : PyVal) :
    ∀ d : PyDict, dictLookup (dictSet d k v) k = some v := by
  intro d
  induction d with
  | nil => simp [dictSet, dictLookup]
  | cons e rest ih =>
    by_cases h : e.1 = k
    · simp [dictSet, h, dictLookup]
    · simp [dictSet, h, dictLookup, List.find?] at ih ⊢
      simpa [h] using ih

/-- Setting one key leaves every other key unchanged. -/
theorem dictLookup_dictSet_ne (k q : String) (v : PyVal) (hne : ¬ (k = q)) :
    ∀ d : PyDict, dictLookup (dictSet d k v) q = dictLookup d q := by
  intro d
  induction d with
  | nil => simp [dictSet, dictLookup, List.find?, hne]
  | cons e rest ih =>
    by_cases h : e.1 = k
    · subst h
      simp [dictSet, dictLookup, List.find?, hne]
    · simp [dictSet, h, dictLookup, List.find?] at ih ⊢
      by_cases h2 : e.1 = q
      · simp [h2]
      · simpa [h2] using ih

/-- A key that is not a column of the primary model is absent from the
seeded row. -/
theorem dictLookup_base_data_none (pmc : ModelClass) (r : PyRecord) (q : String)
    (h : ¬ q ∈ pmc.columns) :
    dictLookup (base_data pmc r) q = none := by
  unfold base_data dictLookup
  rw [Option.map_eq_none']
  rw [List.find?_eq_none]
  intro x hx
  rcases List.mem_map.1 hx with ⟨c, hc, rfl⟩
  simp
  rintro rfl
  exact h hc

/-- The nested UDF loops always complete. -/
theorem apply_udf_fields_ok (rng : RNG) (db : DB) (L : ReportLayoutModel) (cycle : String)
    (r : PyRecord) :
    ∀ (pairs : List (UDFModel × UDFField)) (row0 : PyDict),
      ∃ row, apply_udf_fields rng db L cycle r pairs row0 = Except.ok row := by
  intro pairs
  induction pairs with
  | nil => intro row0; exact ⟨row0, rfl⟩
  | cons uf rest ih =>
    intro row0
    obtain ⟨u, f⟩ := uf
    by_cases hreq : requestedB L u f = true
    · obtain ⟨v, hv⟩ := calculate_udf_total rng db r u.base_model f.source_field
        f.calculation_type f.calculation_params cycle u.aggregation_level
      obtain ⟨row, hrow⟩ := ih (dictSet row0 (u.name ++ "." ++ f.name) v)
      exact ⟨row, by simp [apply_udf_fields, hreq, hv, hrow]⟩
    · obtain ⟨row, hrow⟩ := ih row0
      exact ⟨row, by simp [apply_udf_fields, hreq, hrow]⟩

/-- What the nested UDF loops leave under an arbitrary key `q`: nothing new
when no visited `(udf, field)` pair is requested and qualifies as `q`, and
otherwise the value computed by `calculate_udf` for the last such pair. -/
theorem apply_udf_fields_lookup (rng : RNG) (db : DB) (L : ReportLayoutModel) (cycle : String)
    (r : PyRecord) (q : String) :
    ∀ (pairs : List (UDFModel × UDFField)) (row0 row : PyDict),
      apply_udf_fields rng db L cycle r pairs row0 = Except.ok row →
      (((pairs.filter (fun uf => requestedB L uf.1 uf.2 &&
          decide (uf.1.name ++ "." ++ uf.2.name = q))).getLast? = none →
        dictLookup row q = dictLookup row0 q) ∧
      (∀ u f, (pairs.filter (fun uf => requestedB L uf.1 uf.2 &&
          decide (uf.1.name ++ "." ++ uf.2.name = q))).getLast? = some (u, f) →
        (u, f) ∈ pairs ∧ requestedB L u f = true ∧ q = u.name ++ "." ++ f.name ∧
        ∃ v, calculate_udf rng db r u.base_model f.source_field f.calculation_type
          f.calculation_params cycle u.aggregation_level = Except.ok v ∧
          dictLookup row q = some v)) := by
  intro pairs
  induction pairs generalizing q with
  | nil =>
    intro row0 row h
    cases h
    constructor
    · intro _; rfl
    · intro u f h2
      simp [List.filter] at h2
  | cons uf rest ih =>
    intro row0 row h
    obtain ⟨u0, f0⟩ := uf
    by_cases hreq : requestedB L u0 f0 = true
    · rw [apply_udf_fields, if_pos hreq] at h
      obtain ⟨v0, hv0⟩ := calculate_udf_total rng db r u0.base_model f0.source_field
        f0.calculation_type f0.calculation_params cycle u0.aggregation_level
      rw [hv0] at h
      replace h : apply_udf_fields rng db L cycle r rest
          (dictSet row0 (u0.name ++ "." ++ f0.name) v0) = Except.ok row := h
      by_cases hqd : u0.name ++ "." ++ f0.name = q
      · subst hqd
        have hfc : List.filter
            (fun uf : UDFModel × UDFField => requestedB L uf.1 uf.2 &&
              decide (uf.1.name ++ "." ++ uf.2.name = u0.name ++ "." ++ f0.name))
            ((u0, f0) :: rest) =
            (u0, f0) :: List.filter
            (fun uf : UDFModel × UDFField => requestedB L uf.1 uf.2 &&
              decide (uf.1.name ++ "." ++ uf.2.name = u0.name ++ "." ++ f0.name)) rest := by
          simp [List.filter_cons, hreq]
        rw [hfc]
        constructor
        · intro hnone
          simp at hnone
        · intro u f hlast
          cases hw : List.filter
              (fun uf : UDFModel × UDFField => requestedB L uf.1 uf.2 &&
                decide (uf.1.name ++ "." ++ uf.2.name = u0.name ++ "." ++ f0.name)) rest with
          | nil =>
            rw [hw] at hlast
            simp at hlast
            obtain ⟨h1, h2⟩ := hlast
            subst h1
            subst h2
            have hlook := (ih _ _ row h).1 (by rw [hw]; rfl)
            refine ⟨List.mem_cons_self _ _, hreq, rfl, v0, hv0, ?_⟩
            rw [hlook]
            exact dictLookup_dictSet_self (u0.name ++ "." ++ f0.name) v0 row0
          | cons w1 wrest =>
            rw [hw] at hlast
            rw [List.getLast?_cons_cons] at hlast
            obtain ⟨hmem, hr2, hq2, hv2⟩ := (ih _ _ row h).2 u f (by rw [hw]; exact hlast)
            exact ⟨List.mem_cons_of_mem _ hmem, hr2, hq2, hv2⟩
      · have hfc : List.filter
            (fun uf : UDFModel × UDFField => requestedB L uf.1 uf.2 &&
              decide (uf.1.name ++ "." ++ uf.2.name = q))
            ((u0, f0) :: rest) =
            List.filter
            (fun uf : UDFModel × UDFField => requestedB L uf.1 uf.2 &&
              decide (uf.1.name ++ "." ++ uf.2.name = q)) rest := by
          simp [List.filter_cons, hqd]
        rw [hfc]
        obtain ⟨ihn, ihs⟩ := ih _ _ row h
        constructor
        · intro hnone
          rw [ihn hnone]
          exact dictLookup_dictSet_ne (u0.name ++ "." ++ f0.name) q v0 hqd row0
        · intro u f hlast
          obtain ⟨hmem, hr2, hq2, hv2⟩ := ihs u f hlast
          exact ⟨List.mem_cons_of_mem _ hmem, hr2, hq2, hv2⟩
    · rw [apply_udf_fields, if_neg hreq] at h
      have hfc : List.filter
          (fun uf : UDFModel × UDFField => requestedB L uf.1 uf.2 &&
            decide (uf.1.name ++ "." ++ uf.2.name = q))
          ((u0, f0) :: rest) =
          List.filter
          (fun uf : UDFModel × UDFField => requestedB L uf.1 uf.2 &&
            decide (uf.1.name ++ "." ++ uf.2.name = q)) rest := by
        simp [List.filter_cons, hreq]
      rw [hfc]
      obtain ⟨ihn, ihs⟩ := ih _ row0 row h
      constructor
      · exact ihn
      · intro u f hlast
        obtain ⟨hmem, hr2, hq2, hv2⟩ := ihs u f hlast
        exact ⟨List.mem_cons_of_mem _ hmem, hr2, hq2, hv2⟩

/-- Every base record yields a row. -/
theorem build_row_ok (rng : RNG) (db : DB) (st : AppState) (L : ReportLayoutModel)
    (pmc : ModelClass) (cycle : String) (r : PyRecord) :
    ∃ row, build_row rng db st L pmc cycle r = Except.ok row :=
  apply_udf_fields_ok rng db L cycle r (udf_field_pairs (resolved_udfs st L)) (base_data pmc r)

/-- The record loop succeeds and produces exactly one row per base record,
each row coming from `build_row` on some base record and conversely. -/
theorem build_rows_spec (rng : RNG) (db : DB) (st : AppState) (L : ReportLayoutModel)
    (pmc : ModelClass) (cycle : String) :
    ∀ recs : List PyRecord, ∃ rows,
      build_rows rng db st L pmc cycle recs = Except.ok rows ∧
      rows.length = recs.length ∧
      (∀ row ∈ rows, ∃ r2 ∈ recs, build_row rng db st L pmc cycle r2 = Except.ok row) ∧
      (∀ r2 ∈ recs, ∃ row ∈ rows, build_row rng db st L pmc cycle r2 = Except.ok row) := by
  intro recs
  induction recs with
  | nil => exact ⟨[], rfl, rfl, by simp, by simp⟩
  | cons r rest ih =>
    obtain ⟨row, hrow⟩ := build_row_ok rng db st L pmc cycle r
    obtain ⟨rows, hrows, hlen, hfrom, hto⟩ := ih
    refine ⟨row :: rows, ?_, by simp [hlen], ?_, ?_⟩
    · rw [build_rows, hrow, hrows]
    · intro row2 h2
      rcases List.mem_cons.1 h2 with rfl | h2
      · exact ⟨r, List.mem_cons_self r rest, hrow⟩
      · obtain ⟨r2, hr2, he⟩ := hfrom row2 h2
        exact ⟨r2, List.mem_cons_of_mem r hr2, he⟩
    · intro r2 h2
      rcases List.mem_cons.1 h2 with rfl | h2
      · exact ⟨row, List.mem_cons_self row rows, hrow⟩
      · obtain ⟨row2, hrow2, he⟩ := hto r2 h2
        exact ⟨row2, List.mem_cons_of_mem row hrow2, he⟩

/-- A report run whose layout and primary model resolve succeeds and
returns one row per (filtered) base record. -/
theorem run_report_ok (rng : RNG) (st : AppState) (db : DB) (req : ReportDataRequest)
    (L : ReportLayoutModel) (pmc : ModelClass)
    (hL : st.layouts.find? (fun x => x.id = req.report_id) = some L)
    (hpm : get_model_class_s L.primary_model = some pmc) :
    ∃ resp, run_report rng st db req = Except.ok resp ∧
      resp.report_name = L.name ∧ resp.cycle_code = req.cycle_code ∧
      resp.data.length =
        (apply_filters pmc (req.filters.getD []) (dbRows db pmc.name)).length ∧
      (∀ row ∈ resp.data,
        ∃ r ∈ apply_filters pmc (req.filters.getD []) (dbRows db pmc.name),
          build_row rng db st L pmc req.cycle_code r = Except.ok row) ∧
      (∀ r ∈ apply_filters pmc (req.filters.getD []) (dbRows db pmc.name),
        ∃ row ∈ resp.data,
          build_row rng db st L pmc req.cycle_code r = Except.ok row) := by
  obtain ⟨rows, hrows, hlen, hfrom, hto⟩ := build_rows_spec rng db st L pmc req.cycle_code
    (apply_filters pmc (req.filters.getD []) (dbRows db pmc.name))
  refine ⟨{ report_name := L.name, cycle_code := req.cycle_code, data := rows },
    ?_, rfl, rfl, hlen, hfrom, hto⟩
  simp only [run_report, hL, hpm, hrows]

/-! ### C1 -/

/-- C1: when a requested calculated field's `(calculation_type,
aggregation_level)` pair has no registered implementation (neither exact
nor wildcard), the run still succeeds with one row per base record and that
field holds the deterministic neutral default 0 in every row (the random
legacy branches are unreachable for unregistered pairs because every kind
they guard on is registered). -/
theorem claim_C1_missing_impl_neutral_default (rng : RNG) (st : AppState) (db : DB)
    (req : ReportDataRequest) (L : ReportLayoutModel) (pmc : ModelClass)
    (u : UDFModel) (f : UDFField)
    (hL : st.layouts.find? (fun x => x.id = req.report_id) = some L)
    (hpm : get_model_class_s L.primary_model = some pmc)
    (hu : u ∈ resolved_udfs st L) (hf : f ∈ u.fields)
    (hreq : requestedB L u f = true)
    (hmiss : get_calculation_function CALCULATIONS f.calculation_type
      (some u.aggregation_level) = none)
    (hall : ∀ p ∈ udf_field_pairs (resolved_udfs st L),
      p.1.name ++ "." ++ p.2.name = u.name ++ "." ++ f.name →
      get_calculation_function CALCULATIONS p.2.calculation_type
        (some p.1.aggregation_level) = none) :
    ∃ resp, run_report rng st db req = Except.ok resp ∧
      resp.data.length =
        (apply_filters pmc (req.filters.getD []) (dbRows db pmc.name)).length ∧
      ∀ row ∈ resp.data,
        dictLookup row (u.name ++ "." ++ f.name) = some (PyVal.num 0) := by
  obtain ⟨resp, hrun, _, _, hlen, hfrom, _⟩ := run_report_ok rng st db req L pmc hL hpm
  refine ⟨resp, hrun, hlen, ?_⟩
  intro row hrow
  obtain ⟨r, hrmem, hbuild⟩ := hfrom row hrow
  have hpairs : (u, f) ∈ udf_field_pairs (resolved_udfs st L) :=
    List.mem_flatMap.2 ⟨u, hu, List.mem_map.2 ⟨f, hf, rfl⟩⟩
  have hPmem : (u, f) ∈ (udf_field_pairs (resolved_udfs st L)).filter
      (fun uf => requestedB L uf.1 uf.2 &&
        decide (uf.1.name ++ "." ++ uf.2.name = u.name ++ "." ++ f.name)) :=
    List.mem_filter.2 ⟨hpairs, by simp [hreq]⟩
  have hne : ((udf_field_pairs (resolved_udfs st L)).filter
      (fun uf => requestedB L uf.1 uf.2 &&
        decide (uf.1.name ++ "." ++ uf.2.name = u.name ++ "." ++ f.name))).getLast? ≠
        none := by
    intro hnil
    rw [List.getLast?_eq_none_iff] at hnil
    rw [hnil] at hPmem
    exact List.not_mem_nil _ hPmem
  obtain ⟨w, hw⟩ := Option.ne_none_iff_exists'.1 hne
  obtain ⟨u1, f1⟩ := w
  obtain ⟨hmem1, hreq1, hq1, v, hcalc, hlook⟩ :=
    (apply_udf_fields_lookup rng db L req.cycle_code r (u.name ++ "." ++ f.name) _ _ row
      hbuild).2 u1 f1 hw
  have hmiss1 := hall (u1, f1) hmem1 hq1.symm
  have hzero := calculate_udf_missing_zero rng db r u1.base_model f1.source_field
    f1.calculation_type f1.calculation_params req.cycle_code u1.aggregation_level hmiss1
  rw [hzero] at hcalc
  cases hcalc
  exact hlook

/-- Witness for C1: `fMissing` declares kind `sum` at level `group`, a pair
with no registered implementation; the run over one deal record yields one
row holding 0 under the qualified key. -/
theorem claim_C1_missing_impl_neutral_default_witness :
    ∃ resp, run_report rng0 stMissing dbDeals req0 = Except.ok resp ∧
      resp.data.length =
        (apply_filters Deal (req0.filters.getD []) (dbRows dbDeals Deal.name)).length ∧
      ∀ row ∈ resp.data,
        dictLookup row (uMissing.name ++ "." ++ fMissing.name) = some (PyVal.num 0) :=
  claim_C1_missing_impl_neutral_default rng0 stMissing dbDeals req0 LMissing Deal
    uMissing fMissing rfl rfl (by decide) (by decide) (by decide) rfl
    (by
      intro p hp hq
      have hp2 : p = (uMissing, fMissing) := by
        simpa [udf_field_pairs, resolved_udfs, stMissing, LMissing, uMissing] using hp
      subst hp2
      rfl)

/-! ### C4 -/

/-- C4: an attached UDF field is computed exactly when its bare name or its
qualified `<udf_name>.<field_name>` form appears in the layout's field
list; when computed, the `calculate_udf` result is stored under the
qualified key, and when neither form appears the qualified key is absent
from the row (stated under the hypotheses that the qualified name is not a
base column and that no other attached pair produces the same qualified
name). -/
theorem claim_C4_requested_fields (rng : RNG) (st : AppState) (db : DB)
    (req : ReportDataRequest) (L : ReportLayoutModel) (pmc : ModelClass)
    (u : UDFModel) (f : UDFField)
    (hL : st.layouts.find? (fun x => x.id = req.report_id) = some L)
    (hpm : get_model_class_s L.primary_model = some pmc)
    (hu : u ∈ resolved_udfs st L) (hf : f ∈ u.fields)
    (hcol : ¬ (u.name ++ "." ++ f.name) ∈ pmc.columns)
    (huniq : ∀ p ∈ udf_field_pairs (resolved_udfs st L),
      p.1.name ++ "." ++ p.2.name = u.name ++ "." ++ f.name → p = (u, f)) :
    ∃ resp, run_report rng st db req = Except.ok resp ∧
      resp.data.length =
        (apply_filters pmc (req.filters.getD []) (dbRows db pmc.name)).length ∧
      ∀ r ∈ apply_filters pmc (req.filters.getD []) (dbRows db pmc.name),
        ∃ row ∈ resp.data,
          build_row rng db st L pmc req.cycle_code r = Except.ok row ∧
          (requestedB L u f = true →
            ∃ v, calculate_udf rng db r u.base_model f.source_field f.calculation_type
              f.calculation_params req.cycle_code u.aggregation_level = Except.ok v ∧
              dictLookup row (u.name ++ "." ++ f.name) = some v) ∧
          (requestedB L u f = false →
            dictLookup row (u.name ++ "." ++ f.name) = none) := by
  obtain ⟨resp, hrun, _, _, hlen, _, hto⟩ := run_report_ok rng st db req L pmc hL hpm
  refine ⟨resp, hrun, hlen, ?_⟩
  intro r hr
  obtain ⟨row, hrowmem, hbuild⟩ := hto r hr
  have hlemma := apply_udf_fields_lookup rng db L req.cycle_code r
    (u.name ++ "." ++ f.name) _ _ row hbuild
  refine ⟨row, hrowmem, hbuild, ?_, ?_⟩
  · intro hreqt
    have hpairs : (u, f) ∈ udf_field_pairs (resolved_udfs st L) :=
      List.mem_flatMap.2 ⟨u, hu, List.mem_map.2 ⟨f, hf, rfl⟩⟩
    have hPmem : (u, f) ∈ (udf_field_pairs (resolved_udfs st L)).filter
        (fun uf => requestedB L uf.1 uf.2 &&
          decide (uf.1.name ++ "." ++ uf.2.name = u.name ++ "." ++ f.name)) :=
      List.mem_filter.2 ⟨hpairs, by simp [hreqt]⟩
    have hne : ((udf_field_pairs (resolved_udfs st L)).filter
        (fun uf => requestedB L uf.1 uf.2 &&
          decide (uf.1.name ++ "." ++ uf.2.name = u.name ++ "." ++ f.name))).getLast? ≠
          none := by
      intro hnil
      rw [List.getLast?_eq_none_iff] at hnil
      rw [hnil] at hPmem
      exact List.not_mem_nil _ hPmem
    obtain ⟨w, hw⟩ := Option.ne_none_iff_exists'.1 hne
    obtain ⟨u1, f1⟩ := w
    obtain ⟨hmem1, hreq1, hq1, v, hcalc, hlook⟩ := hlemma.2 u1 f1 hw
    have heq := huniq (u1, f1) hmem1 hq1.symm
    rw [Prod.mk.injEq] at heq
    obtain ⟨rfl, rfl⟩ := heq
    exact ⟨v, hcalc, hlook⟩
  · intro hreqf
    have hWnil : (udf_field_pairs (resolved_udfs st L)).filter
        (fun uf => requestedB L uf.1 uf.2 &&
          decide (uf.1.name ++ "." ++ uf.2.name = u.name ++ "." ++ f.name)) = [] := by
      rw [List.filter_eq_nil_iff]
      intro p hp hP
      rw [Bool.and_eq_true] at hP
      obtain ⟨hP1, hP2⟩ := hP
      have hname := of_decide_eq_true hP2
      have hp2 := huniq p hp hname
      rw [hp2] at hP1
      rw [hP1] at hreqf
      cases hreqf
    have hnone := hlemma.1 (by rw [hWnil]; rfl)
    rw [hnone]
    exact dictLookup_base_data_none pmc r _ hcol

/-- Witness for C4: the requested field `x` of `uMissing` is present in the
row under the qualified key with the `calculate_udf` value. -/
theorem claim_C4_requested_fields_witness :
    ∃ resp, run_report rng0 stMissing dbDeals req0 = Except.ok resp ∧
      resp.data.length =
        (apply_filters Deal (req0.filters.getD []) (dbRows dbDeals Deal.name)).length ∧
      ∀ r ∈ apply_filters Deal (req0.filters.getD []) (dbRows dbDeals Deal.name),
        ∃ row ∈ resp.data,
          build_row rng0 dbDeals stMissing LMissing Deal req0.cycle_code r = Except.ok row ∧
          (requestedB LMissing uMissing fMissing = true →
            ∃ v, calculate_udf rng0 dbDeals r uMissing.base_model fMissing.source_field
              fMissing.calculation_type fMissing.calculation_params req0.cycle_code
              uMissing.aggregation_level = Except.ok v ∧
              dictLookup row (uMissing.name ++ "." ++ fMissing.name) = some v) ∧
          (requestedB LMissing uMissing fMissing = false →
            dictLookup row (uMissing.name ++ "." ++ fMissing.name) = none) :=
  claim_C4_requested_fields rng0 stMissing dbDeals req0 LMissing Deal uMissing fMissing
    rfl rfl (by decide) (by decide) (by decide)
    (by
      intro p hp hq
      simpa [udf_field_pairs, resolved_udfs, stMissing, LMissing, uMissing] using hp)
